import Mathlib

/-!
# Verification of the PeggleRogue level generator (`src/levelGenerator.js`)

Shallow embedding of the `LevelGenerator` class over exact rationals.

Conventions of the embedding:

* JavaScript numbers are modelled as `ℚ` (exact arithmetic; the source performs
  only +, -, *, /, `Math.floor`, `Math.min/max`, comparisons and a few
  transcendental calls on them).
* `Math.random()` is modelled as an explicit stream `rng : ℕ → ℚ` together with
  a threaded index `k : ℕ`; each call of `Math.random()` in the source reads
  `rng k` and advances the index by one, in exactly the source's call order.
  A real random stream satisfies `0 ≤ rng n < 1`.
* `Math.sin`, `Math.cos`, `Math.atan2` and value-producing uses of `Math.sqrt`
  are modelled through an abstract interface `JsMath` (their exact float values
  are irrational); `Math.PI` is the exact rational value of the float constant.
* Comparisons `Math.sqrt(dx*dx+dy*dy) < m` are embedded as the equivalent
  rational test `0 < m ∧ dx^2+dy^2 < m^2` (`distLtB`), which agrees with the
  source test for every real square root since both sides are nonnegative.
* Loops whose bound comes from a division that can be `Infinity` in JS
  (division by zero) return `Option`: `none` models a call that never returns
  normally (an infinite loop, or a thrown `RangeError` for `Array(n)` with a
  negative length in the maze pattern).
* Functions that dispatch on function identity (`patternFunc === this.createX`)
  are modelled with a `PatternKind` tag.
* JS array indexing out of bounds yields `undefined`; the places where this is
  reachable only for `rng` values outside `[0,1)` (which `Math.random` never
  produces) are modelled with a default value and documented inline.
-/

/-- A peg as produced by the generator: a position and a color index.
The color index is an integer because the source can produce negative
provisional values (e.g. `Math.floor` of a negative spiral value). -/
structure Peg where
  x : ℚ
  y : ℚ
  colorIndex : ℤ
deriving Repr, DecidableEq

/-- Constructor configuration of `LevelGenerator(pegRadius, canvasWidth, canvasHeight)`. -/
structure GenConfig where
  pegRadius : ℚ
  canvasWidth : ℚ
  canvasHeight : ℚ
deriving Repr, DecidableEq

/-- The configuration the game constructs in `game.js`:
`new LevelGenerator(PEG_RADIUS = 10, CANVAS_WIDTH = 800, CANVAS_HEIGHT = 650)`. -/
def cfg800 : GenConfig := ⟨10, 800, 650⟩

/-- The abstract interface for the JS `Math` functions whose values are
irrational.  `sqrt` is only used where the source uses the *value* of a square
root (gradients, cluster radii); pure comparisons use `distLtB` below. -/
structure JsMath where
  sin : ℚ → ℚ
  cos : ℚ → ℚ
  atan2 : ℚ → ℚ → ℚ
  sqrt : ℚ → ℚ

/-- A random stream: `rng n` models the result of the `n`-th `Math.random()` call. -/
abbrev RNG := ℕ → ℚ

/-- The exact rational value of the float64 constant `Math.PI`. -/
def piJS : ℚ := 884279719003555 / 281474976710656

/-- JS truncation toward zero (used by the `%` operator on numbers). -/
def jsTrunc (q : ℚ) : ℤ := if 0 ≤ q then ⌊q⌋ else -⌊-q⌋

/-- The JS `%` operator on (finite, nonzero-divisor) numbers: the remainder has
the sign of the dividend. -/
def jsFmod (a b : ℚ) : ℚ := a - b * (jsTrunc (a / b) : ℤ)

/-- The JS `%` operator on integers (truncated division remainder). -/
def jsRemInt (a b : ℤ) : ℤ := a - b * (jsTrunc ((a : ℚ) / (b : ℚ)))

/-- JS `Math.round`: round half toward positive infinity. -/
def jsRound (q : ℚ) : ℤ := ⌊q + 1/2⌋

/-- Interpret an integer as a 32-bit unsigned bit pattern (JS `ToUint32`). -/
def toUInt32bits (n : ℤ) : ℕ := (n.emod (2 ^ 32)).toNat

/-- Reinterpret a 32-bit pattern as a signed integer (JS `ToInt32` result). -/
def ofUInt32bits (u : ℕ) : ℤ := if u < 2 ^ 31 then (u : ℤ) else (u : ℤ) - 2 ^ 32

/-- The JS `^` (bitwise xor) operator on numbers, which converts both operands
to 32-bit integers. -/
def jsXor32 (a b : ℤ) : ℤ := ofUInt32bits (Nat.xor (toUInt32bits a) (toUInt32bits b))

/-- Embeds the source comparison `Math.sqrt((px-qx)^2+(py-qy)^2) < m`:
for any real square root this is equivalent to `0 < m ∧ (px-qx)^2+(py-qy)^2 < m^2`. -/
def distLtB (px py qx qy m : ℚ) : Bool :=
  decide (0 < m) && decide ((px - qx) ^ 2 + (py - qy) ^ 2 < m ^ 2)

/-! ## Class constants (constructor fields of `LevelGenerator`) -/

/-- `this.minPegSpacing = 50`. -/
def minPegSpacing : ℚ := 50

/-- `this.maxPatterns = 4`. -/
def maxPatterns : ℕ := 4

/-- `this.horizontalMargin = 100`. -/
def horizontalMargin : ℚ := 100

/-- `this.minPegCountPerLevel = 35`. -/
def minPegCountPerLevel : ℤ := 35

/-- `this.pegIncreasePerLevel = 5`. -/
def pegIncreasePerLevel : ℤ := 5

/-- `this.maxPegCount = 120`. -/
def maxPegCount : ℤ := 120

/-- `this.colorProgression`: `(level threshold, colors)` pairs. -/
def colorProgression : List (ℕ × ℕ) := [(1, 4), (3, 6), (11, 8)]

/-- The loop body of `getAvailableColors`: scan the progression, updating the
accumulator while `levelNumber >= progression.level`, stopping at the first
failure (the source's `break`). -/
def getAvailableColorsGo (levelNumber : ℕ) : List (ℕ × ℕ) → ℕ → ℕ
  | [], acc => acc
  | (lvl, colors) :: rest, acc =>
    if lvl ≤ levelNumber then getAvailableColorsGo levelNumber rest colors else acc

/-- `getAvailableColors(levelNumber)`: number of colors available at a level. -/
def getAvailableColors (levelNumber : ℕ) : ℕ :=
  getAvailableColorsGo levelNumber colorProgression 4

/-- `getMinimumPegCount(levelNumber)`: `min(35 + (level-1)*5, 120)`. -/
def getMinimumPegCount (levelNumber : ℕ) : ℤ :=
  min (minPegCountPerLevel + ((levelNumber : ℤ) - 1) * pegIncreasePerLevel) maxPegCount

/-- The `pegSpacing` computed at the top of `generateLevel`:
`max(minPegSpacing - level*1.8, pegRadius*2.3)`. -/
def levelPegSpacing (cfg : GenConfig) (levelNumber : ℕ) : ℚ :=
  max (minPegSpacing - (levelNumber : ℚ) * 1.8) (cfg.pegRadius * 2.3)

/-- The scaled base threshold of `getColorThresholds` (the value of
`scaledThreshold` before per-color variation), a four-band piecewise-linear
function of the level number. -/
def scaledThreshold (levelNumber : ℕ) : ℚ :=
  if levelNumber ≤ 5 then 0.25 + (((levelNumber : ℚ) - 1) / 4) * 0.15
  else if levelNumber ≤ 10 then 0.40 + (((levelNumber : ℚ) - 6) / 4) * 0.15
  else if levelNumber ≤ 15 then 0.55 + (((levelNumber : ℚ) - 11) / 4) * 0.15
  else min 0.80 (0.70 + (((levelNumber : ℚ) - 16) / 10) * 0.10)

/-- Entry `i` of the thresholds array built by `getColorThresholds`.  The loop
runs over `i < availableColors` in ascending order and (for `levelNumber > 3`)
performs exactly one `Math.random()` call per iteration, so iteration `i` reads
`rng (k + i)`; entries at `i ≥ availableColors` keep the `Array(8).fill(0)`
default. -/
def thresholdEntry (levelNumber : ℕ) (rng : RNG) (k : ℕ) (i : ℕ) : ℚ :=
  if i < getAvailableColors levelNumber then
    let colorVariation : ℚ :=
      if 3 < levelNumber then
        (if i = 0 then 0.05
         else if i = getAvailableColors levelNumber - 1 then -0.03 else 0)
          + (rng (k + i) * 0.06 - 0.03)
      else 0
    min 0.85 (max 0.2 (scaledThreshold levelNumber + colorVariation))
  else 0

/-- `getColorThresholds(levelNumber)`: the size-8 per-color threshold array. -/
def getColorThresholds (levelNumber : ℕ) (rng : RNG) (k : ℕ) : List ℚ :=
  (List.range 8).map (thresholdEntry levelNumber rng k)

/-- `this.getAvailableColors(this.currentLevelNumber || 1)` as read inside the
pattern functions: level `0` (a falsy `currentLevelNumber`) falls back to 1. -/
def availableColorsCur (curLevel : ℕ) : ℕ :=
  getAvailableColors (if curLevel = 0 then 1 else curLevel)

/-- An inclusive integer range `[lo, hi]` (empty when `hi < lo`), used for the
source loops of the form `for (let i = lo; i <= hi; i++)`. -/
def intRangeIncl (lo hi : ℤ) : List ℤ :=
  (List.range (hi + 1 - lo).toNat).map (fun t => lo + (t : ℤ))

/-- `removePegOverlaps(pegs, minDistance)`: keep each peg only if it is not
closer than `minDistance` to an already kept peg. -/
def removePegOverlaps (pegs : List Peg) (minDistance : ℚ) : List Peg :=
  pegs.foldl (fun result peg =>
    if result.any (fun existingPeg => distLtB existingPeg.x existingPeg.y peg.x peg.y minDistance)
    then result else result ++ [peg]) []

/-- `removeEdgePegs(pegs, minEdgeDistance)`: keep pegs at least
`minEdgeDistance` inside the margins horizontally and the canvas vertically. -/
def removeEdgePegs (cfg : GenConfig) (pegs : List Peg) (minEdgeDistance : ℚ) : List Peg :=
  pegs.filter (fun peg =>
    decide (horizontalMargin + minEdgeDistance ≤ peg.x) &&
    decide (peg.x ≤ cfg.canvasWidth - horizontalMargin - minEdgeDistance) &&
    decide (minEdgeDistance ≤ peg.y) &&
    decide (peg.y ≤ cfg.canvasHeight - minEdgeDistance))

/-- The pattern catalog keys (`this.patterns`), as a tag type replacing the
source's dispatch on function identity. -/
inductive PatternKind where
  | grid | checkerboard | diamond | spiral | tunnel | wave | vortex
  | concentric | zigzag | hourglass | maze | random | clustered
deriving Repr, DecidableEq

/-- `Object.keys(this.patterns)` in insertion order. -/
def patternOrder : List PatternKind :=
  [.grid, .checkerboard, .diamond, .spiral, .tunnel, .wave, .vortex,
   .concentric, .zigzag, .hourglass, .maze, .random, .clustered]

/-- `this.patternDifficulty` (every catalog pattern has an entry, so the
source's `|| 5` fallback is never exercised). -/
def patternDifficulty : PatternKind → ℕ
  | .grid => 1
  | .checkerboard => 2
  | .random => 3
  | .diamond => 4
  | .wave => 5
  | .clustered => 6
  | .tunnel => 7
  | .spiral => 8
  | .vortex => 10
  | .concentric => 6
  | .zigzag => 7
  | .hourglass => 8
  | .maze => 9

/-- `createGridPattern(startX, startY, columns, rows, pegSpacing, density)`:
row-major lattice; each cell first draws the density gate
(`Math.random() > density` skips, one pull), then an included cell draws its
color (a second pull). -/
def createGridPattern (curLevel : ℕ) (rng : RNG) (startX startY : ℚ)
    (columns rows : ℤ) (pegSpacing density : ℚ) (k : ℕ) : List Peg × ℕ :=
  let availableColors := availableColorsCur curLevel
  ((List.range rows.toNat).flatMap
      (fun row => (List.range columns.toNat).map (fun col => (row, col)))).foldl
    (fun st rc =>
      if density < rng st.2 then (st.1, st.2 + 1)
      else
        (st.1 ++ [⟨startX + (rc.2 : ℚ) * pegSpacing, startY + (rc.1 : ℚ) * pegSpacing,
          ⌊rng (st.2 + 1) * (availableColors : ℚ)⌋⟩], st.2 + 2))
    ([], k)

/-- `createCheckerboardPattern`: as the grid, but only cells with even
`row + col` are candidates; the density pull happens only for candidate cells
(the source's `&&` short-circuit). -/
def createCheckerboardPattern (curLevel : ℕ) (rng : RNG) (startX startY : ℚ)
    (columns rows : ℤ) (pegSpacing density : ℚ) (k : ℕ) : List Peg × ℕ :=
  let availableColors := availableColorsCur curLevel
  ((List.range rows.toNat).flatMap
      (fun row => (List.range columns.toNat).map (fun col => (row, col)))).foldl
    (fun st rc =>
      if (rc.1 + rc.2) % 2 = 0 then
        if rng st.2 ≤ density then
          (st.1 ++ [⟨startX + (rc.2 : ℚ) * pegSpacing, startY + (rc.1 : ℚ) * pegSpacing,
            ⌊rng (st.2 + 1) * (availableColors : ℚ)⌋⟩], st.2 + 2)
        else (st.1, st.2 + 1)
      else st)
    ([], k)

/-- `createDiamondPattern(centerX, centerY, radius, pegSpacing)`.  With
`pegSpacing = 0` and `radius > 0` the source computes `steps = Infinity` and the
loop `for (let i = -steps; i <= steps; i++)` never terminates (`none`);
`pegSpacing = 0` with `radius ≤ 0` yields an empty loop.  `rowWidth` is the
exact even integer `(steps - |i|) * 2`, so the inner bound `rowWidth / 2` is
the integer `steps - |i|`. -/
def createDiamondPattern (curLevel : ℕ) (rng : RNG) (centerX centerY radius pegSpacing : ℚ)
    (k : ℕ) : Option (List Peg × ℕ) :=
  let availableColors := availableColorsCur curLevel
  if pegSpacing = 0 then (if 0 < radius then none else some ([], k))
  else
    let steps : ℤ := ⌊radius / pegSpacing⌋
    some ((intRangeIncl (-steps) steps).foldl
      (fun st i =>
        let w := steps - |i|
        (intRangeIncl (-w) w).foldl
          (fun st2 j =>
            (st2.1 ++ [⟨centerX + (j : ℚ) * pegSpacing, centerY + (i : ℚ) * pegSpacing,
              ⌊rng st2.2 * (availableColors : ℚ)⌋⟩], st2.2 + 1))
          st)
      ([], k))

/-- `createSpiralPattern(centerX, centerY, radius, turns = 3, pegSpacing)`.
With `radius = 0` the source's `angleStep` is `±Infinity`/`NaN` and the step
count collapses to zero iterations; with `pegSpacing = 0` and `radius ≠ 0`,
`angleStep = 0`, so `steps = Math.floor(maxAngle / 0) = Infinity` whenever
`maxAngle > 0` and the loop never terminates (`none`). -/
def createSpiralPattern (m : JsMath) (curLevel : ℕ) (rng : RNG)
    (centerX centerY radius : ℚ) (turns : ℕ) (pegSpacing : ℚ) (k : ℕ) :
    Option (List Peg × ℕ) :=
  let availableColors := availableColorsCur curLevel
  if radius = 0 then some ([], k)
  else
    let angleStep := pegSpacing / radius
    let maxAngle := (turns : ℚ) * 2 * piJS
    if angleStep = 0 ∧ 0 < maxAngle then none
    else
      let steps : ℤ := ⌊maxAngle / angleStep⌋
      some ((List.range steps.toNat).foldl
        (fun st i =>
          let angle := (i : ℚ) * angleStep
          let distance := radius * angle / maxAngle
          if radius ≤ distance then st
          else
            (st.1 ++ [⟨centerX + m.cos angle * distance, centerY + m.sin angle * distance,
              ⌊rng st.2 * (availableColors : ℚ)⌋⟩], st.2 + 1))
        ([], k))

/-- `createTunnelPattern(centerX, centerY, radius, pegSpacing, horizontal)`:
two parallel rows/columns with a 3-spacing gap; each loop step pushes two pegs,
each with its own color pull.  Degenerate spacing behaves as in the diamond
pattern. -/
def createTunnelPattern (curLevel : ℕ) (rng : RNG)
    (centerX centerY radius pegSpacing : ℚ) (horizontal : Bool) (k : ℕ) :
    Option (List Peg × ℕ) :=
  let availableColors := availableColorsCur curLevel
  let gap : ℚ := 3
  if pegSpacing = 0 then (if 0 < radius then none else some ([], k))
  else
    let steps : ℤ := ⌊radius / pegSpacing⌋
    some ((intRangeIncl (-steps) steps).foldl
      (fun st i =>
        if horizontal then
          (st.1 ++ [⟨centerX + (i : ℚ) * pegSpacing, centerY - gap * pegSpacing / 2,
              ⌊rng st.2 * (availableColors : ℚ)⌋⟩,
            ⟨centerX + (i : ℚ) * pegSpacing, centerY + gap * pegSpacing / 2,
              ⌊rng (st.2 + 1) * (availableColors : ℚ)⌋⟩], st.2 + 2)
        else
          (st.1 ++ [⟨centerX - gap * pegSpacing / 2, centerY + (i : ℚ) * pegSpacing,
              ⌊rng st.2 * (availableColors : ℚ)⌋⟩,
            ⟨centerX + gap * pegSpacing / 2, centerY + (i : ℚ) * pegSpacing,
              ⌊rng (st.2 + 1) * (availableColors : ℚ)⌋⟩], st.2 + 2))
      ([], k))

/-- `createWavePattern(startX, startY, width, height, pegSpacing, waves)`:
one wave peg per column plus one above and one below, three color pulls per
column.  With `pegSpacing = 0` and `width > 0` the column bound is `Infinity`
and the loop never terminates (`none`); when the column loop is empty the
unused `frequency` division is irrelevant. -/
def createWavePattern (m : JsMath) (curLevel : ℕ) (rng : RNG)
    (startX startY width height pegSpacing : ℚ) (waves : ℕ) (k : ℕ) :
    Option (List Peg × ℕ) :=
  let availableColors := availableColorsCur curLevel
  if pegSpacing = 0 then (if 0 < width then none else some ([], k))
  else
    let columns : ℤ := ⌊width / pegSpacing⌋
    let rows : ℤ := ⌊height / pegSpacing⌋
    let amplitude := (rows : ℚ) / 3
    let frequency := piJS * (waves : ℚ) / (columns : ℚ)
    some ((List.range columns.toNat).foldl
      (fun st col =>
        let waveY := m.sin ((col : ℚ) * frequency) * amplitude
        let pegRow : ℤ := jsRound ((rows : ℚ) / 2 + waveY)
        let x := startX + (col : ℚ) * pegSpacing
        let y := startY + (pegRow : ℚ) * pegSpacing
        (st.1 ++ [⟨x, y, ⌊rng st.2 * (availableColors : ℚ)⌋⟩,
          ⟨x, y - pegSpacing, ⌊rng (st.2 + 1) * (availableColors : ℚ)⌋⟩,
          ⟨x, y + pegSpacing, ⌊rng (st.2 + 2) * (availableColors : ℚ)⌋⟩], st.2 + 3))
      ([], k))

/-- `createVortexPattern(centerX, centerY, radius, turns = 4, pegSpacing)`:
three spiral arms; the color is `arm % availableColors` (no random pulls).
Degenerate spacing behaves as in the spiral pattern. -/
def createVortexPattern (m : JsMath) (curLevel : ℕ)
    (centerX centerY radius : ℚ) (turns : ℕ) (pegSpacing : ℚ) (k : ℕ) :
    Option (List Peg × ℕ) :=
  let availableColors := availableColorsCur curLevel
  if radius = 0 then some ([], k)
  else
    let angleStep := pegSpacing / radius
    let maxAngle := (turns : ℚ) * 2 * piJS
    if angleStep = 0 ∧ 0 < maxAngle then none
    else
      let steps : ℤ := ⌊maxAngle / angleStep⌋
      some (((List.range 3).foldl
        (fun pegs (arm : ℕ) =>
          let armOffset := (arm : ℚ) * 2 * piJS / 3
          (List.range steps.toNat).foldl
            (fun pegs2 (i : ℕ) =>
              let angle := (i : ℚ) * angleStep + armOffset
              let distance := radius * angle / maxAngle
              if radius ≤ distance then pegs2
              else
                pegs2 ++ [⟨centerX + m.cos angle * distance, centerY + m.sin angle * distance,
                  Int.ofNat (arm % availableColors)⟩])
            pegs)
        []), k)

/-- The attempt loop of `createRandomPattern`, with the remaining attempt
budget as fuel (the source caps attempts at `count * 10`). -/
def createRandomPatternGo (curLevel : ℕ) (rng : RNG)
    (minX minY maxX maxY minDistance : ℚ) (count : ℤ) :
    ℕ → List Peg → ℕ → List Peg × ℕ
  | 0, pegs, k => (pegs, k)
  | fuel + 1, pegs, k =>
    if (pegs.length : ℤ) < count then
      let x := minX + rng k * (maxX - minX)
      let y := minY + rng (k + 1) * (maxY - minY)
      if pegs.any (fun peg => distLtB peg.x peg.y x y minDistance) then
        createRandomPatternGo curLevel rng minX minY maxX maxY minDistance count fuel pegs (k + 2)
      else
        createRandomPatternGo curLevel rng minX minY maxX maxY minDistance count fuel
          (pegs ++ [⟨x, y, ⌊rng (k + 2) * (availableColorsCur curLevel : ℚ)⌋⟩]) (k + 3)
    else (pegs, k)

/-- `createRandomPattern(minX, minY, maxX, maxY, minDistance, count)`:
rejection sampling with an attempt budget of `count * 10`. -/
def createRandomPattern (curLevel : ℕ) (rng : RNG)
    (minX minY maxX maxY minDistance : ℚ) (count : ℤ) (k : ℕ) : List Peg × ℕ :=
  createRandomPatternGo curLevel rng minX minY maxX maxY minDistance count
    (count * 10).toNat [] k

/-- The cluster centers of `createClusteredPattern`: each draws x, y and a
primary color (three pulls). -/
def clusteredCenters (curLevel : ℕ) (rng : RNG) (minX minY width height : ℚ)
    (clusterCount : ℕ) (k : ℕ) : List (ℚ × ℚ × ℤ) × ℕ :=
  (List.range clusterCount).foldl
    (fun st _ =>
      (st.1 ++ [(minX + rng st.2 * width, minY + rng (st.2 + 1) * height,
        ⌊rng (st.2 + 2) * (availableColorsCur curLevel : ℚ)⌋)], st.2 + 3))
    ([], k)

/-- `createClusteredPattern(minX, minY, width, height, pegSpacing, clusterCount)`:
cluster centers, then 15 pegs per cluster (angle pull, radius pull via
`Math.pow(Math.random(), 0.5)`, then one or two color pulls), followed by
overlap removal at `pegSpacing * 0.8`. -/
def createClusteredPattern (m : JsMath) (curLevel : ℕ) (rng : RNG)
    (minX minY width height pegSpacing : ℚ) (clusterCount : ℕ) (k : ℕ) :
    List Peg × ℕ :=
  let availableColors := availableColorsCur curLevel
  let clusterRadius := pegSpacing * 3
  let centers := clusteredCenters curLevel rng minX minY width height clusterCount k
  let st := centers.1.foldl
    (fun st c =>
      (List.range 15).foldl
        (fun st2 _ =>
          let angle := rng st2.2 * piJS * 2
          let distance := clusterRadius * m.sqrt (rng (st2.2 + 1))
          let x := c.1 + m.cos angle * distance
          let y := c.2.1 + m.sin angle * distance
          if rng (st2.2 + 2) < 0.7 then
            (st2.1 ++ [⟨x, y, c.2.2⟩], st2.2 + 3)
          else
            (st2.1 ++ [⟨x, y, ⌊rng (st2.2 + 3) * (availableColors : ℚ)⌋⟩], st2.2 + 4))
        st)
    ([], centers.2)
  (removePegOverlaps st.1 (pegSpacing * 0.8), st.2)

/-- `createConcentricPattern(centerX, centerY, radius, pegSpacing)`: rings of
pegs, color `ring % availableColors`, no random pulls.  Degenerate spacing
behaves as in the diamond pattern. -/
def createConcentricPattern (m : JsMath) (curLevel : ℕ)
    (centerX centerY radius pegSpacing : ℚ) (k : ℕ) : Option (List Peg × ℕ) :=
  let availableColors := availableColorsCur curLevel
  if pegSpacing = 0 then (if 0 < radius then none else some ([], k))
  else
    let rings : ℤ := ⌊radius / pegSpacing⌋
    some (((intRangeIncl 1 rings).foldl
      (fun pegs (r : ℤ) =>
        let ringRadius := (r : ℚ) * pegSpacing
        let circumference := 2 * piJS * ringRadius
        let pegCount : ℤ := ⌊circumference / pegSpacing⌋
        (List.range pegCount.toNat).foldl
          (fun pegs2 (i : ℕ) =>
            let angle := ((i : ℚ) / (pegCount : ℚ)) * 2 * piJS
            pegs2 ++ [⟨centerX + m.cos angle * ringRadius, centerY + m.sin angle * ringRadius,
              jsRemInt r (availableColors : ℤ)⟩])
          pegs)
      []), k)

/-- Number of iterations of the zigzag row loop
`for (let row = 0; row * zigzagHeight < height; row++)` when it terminates
(`zigzagHeight > 0`): the count of naturals `row` with `row * zh < height`. -/
def zigzagRowCount (zigzagHeight height : ℚ) : ℕ :=
  if height ≤ 0 then 0 else (⌈height / zigzagHeight⌉).toNat

/-- `createZigzagPattern(startX, startY, width, height, pegSpacing)`: vertical
peg lines per column, offset alternately by half the zigzag period; color
`(col + row) % availableColors`, no random pulls.  The call never returns when
the column bound is infinite (`pegSpacing = 0` with `width > 0`) or when the
row loop cannot terminate (`zigzagHeight = 3 * pegSpacing ≤ 0` with
`height > 0` and at least one column). -/
def createZigzagPattern (curLevel : ℕ)
    (startX startY width height pegSpacing : ℚ) (k : ℕ) : Option (List Peg × ℕ) :=
  let availableColors := availableColorsCur curLevel
  if pegSpacing = 0 then (if 0 < width then none else some ([], k))
  else
    let columns : ℤ := ⌊width / pegSpacing⌋
    let zigzagHeight := 3 * pegSpacing
    if 1 ≤ columns ∧ zigzagHeight ≤ 0 ∧ 0 < height then none
    else
      some (((List.range columns.toNat).foldl
        (fun pegs (col : ℕ) =>
          let x := startX + (col : ℚ) * pegSpacing
          let zigzagOffset := if col % 2 = 0 then 0 else zigzagHeight / 2
          (List.range (zigzagRowCount zigzagHeight height)).foldl
            (fun pegs2 (row : ℕ) =>
              let baseY := startY + (row : ℚ) * zigzagHeight
              pegs2 ++ [⟨x, baseY + zigzagOffset,
                Int.ofNat ((col + row) % availableColors)⟩])
            pegs)
        []), k)

/-- `createHourglassPattern(centerX, centerY, radius, pegSpacing)`: rows narrow
toward the middle; color `(|row| + |col|) % availableColors`, no random pulls.
With `maxRows = 0` the single `row = 0` iteration computes `rowFraction =
0 / 0 = NaN` in the source, making `rowWidth = NaN` and the inner loop empty,
so the result is empty (special-cased here since `ℚ` division by zero would
otherwise produce a spurious row). -/
def createHourglassPattern (curLevel : ℕ)
    (centerX centerY radius pegSpacing : ℚ) (k : ℕ) : Option (List Peg × ℕ) :=
  let availableColors := availableColorsCur curLevel
  if pegSpacing = 0 then (if 0 < radius then none else some ([], k))
  else
    let maxRows : ℤ := ⌊radius / pegSpacing⌋
    if maxRows = 0 then some ([], k)
    else
      some (((intRangeIncl (-maxRows) maxRows).foldl
        (fun pegs (row : ℤ) =>
          let rowFraction : ℚ := ((|row| : ℤ) : ℚ) / (maxRows : ℚ)
          let rowWidth : ℤ := max 1 ⌊rowFraction * (maxRows : ℚ)⌋
          (intRangeIncl (-rowWidth) rowWidth).foldl
            (fun pegs2 (col : ℤ) =>
              pegs2 ++ [⟨centerX + (col : ℚ) * pegSpacing, centerY + (row : ℚ) * pegSpacing,
                jsRemInt (|row| + |col|) (availableColors : ℤ)⟩])
            pegs)
        []), k)

/-- The wall-building loop of `createMazePattern`: visits cells with even row
and column indices, marks them, and with an up-to-two-pull random gate extends
a wall down or right.  The grid is a characteristic function of marked cells. -/
def mazeWalls (rng : RNG) (rows cols : ℕ) (k : ℕ) : ((ℕ × ℕ) → Bool) × ℕ :=
  (((List.range rows).filter (fun r => r % 2 = 0)).flatMap
      (fun r => ((List.range cols).filter (fun c => c % 2 = 0)).map (fun c => (r, c)))).foldl
    (fun st rc =>
      let g1 : (ℕ × ℕ) → Bool := fun p => p = rc || st.1 p
      let directions := [(rc.1 + 1, rc.2), (rc.1, rc.2 + 1)].filter
        (fun p => decide (p.1 < rows) && decide (p.2 < cols))
      if directions ≠ [] then
        if rng st.2 < 0.7 then
          let wall := directions.getD (⌊rng (st.2 + 1) * (directions.length : ℚ)⌋).toNat (0, 0)
          (fun p => p = wall || g1 p, st.2 + 2)
        else (g1, st.2 + 1)
      else (g1, st.2))
    ((fun _ => false), k)

/-- `createMazePattern(startX, startY, width, height, pegSpacing)`: build the
wall grid, then convert marked cells to pegs (color `(row + col) %
availableColors`).  The source allocates `Array(rows)` and `Array(cols)` before
looping: a non-finite or negative `rows` (or a negative/non-finite `cols` with
`rows ≥ 1`) throws a `RangeError`, and `pegSpacing = 0` always ends in a throw
or an infinite loop — all modelled as `none`. -/
def createMazePattern (curLevel : ℕ) (rng : RNG)
    (startX startY width height pegSpacing : ℚ) (k : ℕ) : Option (List Peg × ℕ) :=
  let availableColors := availableColorsCur curLevel
  if pegSpacing = 0 then none
  else
    let rows : ℤ := ⌊height / pegSpacing⌋
    let cols : ℤ := ⌊width / pegSpacing⌋
    if rows < 0 then none
    else if rows = 0 then some ([], k)
    else if cols < 0 then none
    else
      let walls := mazeWalls rng rows.toNat cols.toNat k
      some (((List.range rows.toNat).foldl
        (fun pegs (row : ℕ) =>
          (List.range cols.toNat).foldl
            (fun pegs2 (col : ℕ) =>
              if walls.1 (row, col) then
                pegs2 ++ [⟨startX + (col : ℚ) * pegSpacing, startY + (row : ℚ) * pegSpacing,
                  Int.ofNat ((row + col) % availableColors)⟩]
              else pegs2)
            pegs)
        []), walls.2)

/-- A canvas section scoping one pattern instance. -/
structure Section where
  x : ℚ
  y : ℚ
  width : ℚ
  height : ℚ
  rotation : Option ℚ := none
deriving Repr, DecidableEq

/-- `selectPatternsByDifficulty(difficultyFactor)`: catalog patterns whose
difficulty is at most `difficultyFactor + 2`, in catalog order. -/
def selectPatternsByDifficulty (difficultyFactor : ℕ) : List PatternKind :=
  patternOrder.filter (fun p => patternDifficulty p ≤ difficultyFactor + 2)

/-- The per-pattern weight of `selectRandomPatternsForLevel`: `10 - difficulty`
for levels ≤ 5 (clamped at 0 — the loop `for (i < weight)` runs zero times for
a nonpositive weight), otherwise the difficulty itself. -/
def patternWeight (levelNumber : ℕ) (p : PatternKind) : ℕ :=
  if levelNumber ≤ 5 then 10 - patternDifficulty p else patternDifficulty p

/-- The weighted multiset (as an ordered list) of `selectRandomPatternsForLevel`. -/
def weightedPatternsFor (available : List PatternKind) (levelNumber : ℕ) : List PatternKind :=
  available.flatMap (fun p => List.replicate (patternWeight levelNumber p) p)

/-- The draw loop of `selectRandomPatternsForLevel`.  Each draw reads one
random value; all copies of the drawn pattern are removed (the source splices
from the back, which is order-equivalent to a filter) unless
`selected.length < count - 1` fails, i.e. removal is skipped for the last two
draws.  The default of `getD` is reachable only for `rng` values outside
`[0,1)`. -/
def selectRandomGo (rng : RNG) (count : ℕ) :
    ℕ → List PatternKind → List PatternKind → ℕ → List PatternKind × ℕ
  | 0, _, selected, k => (selected, k)
  | rem + 1, pool, selected, k =>
    if pool.isEmpty then (selected, k)
    else
      let index := (⌊rng k * (pool.length : ℚ)⌋).toNat
      let pattern := pool.getD index .grid
      let selected2 := selected ++ [pattern]
      let pool2 := if selected2.length < count - 1 then pool.filter (· ≠ pattern) else pool
      selectRandomGo rng count rem pool2 selected2 (k + 1)

/-- `selectRandomPatternsForLevel(availablePatterns, count, levelNumber)`. -/
def selectRandomPatternsForLevel (available : List PatternKind) (count levelNumber : ℕ)
    (rng : RNG) (k : ℕ) : List PatternKind × ℕ :=
  selectRandomGo rng count count (weightedPatternsFor available levelNumber) [] k

/-- `Math.ceil(Math.sqrt(count))` for a natural count (exact for the small
counts the generator uses). -/
def ceilSqrtNat (n : ℕ) : ℕ :=
  if Nat.sqrt n * Nat.sqrt n = n then Nat.sqrt n else Nat.sqrt n + 1

/-- First index of the strictly largest area in a section list (the source
scans with `area > largestArea` starting from `largestArea = 0`). -/
def largestSectionIndex (sections : List Section) : ℕ :=
  (sections.enum.foldl
    (fun best si =>
      if best.2 < si.2.width * si.2.height then (si.1, si.2.width * si.2.height) else best)
    (0, 0)).1

/-- First index of the strictly smallest area (the source scans with
`area < smallestArea` starting from `Infinity`, so the first element always
enters). -/
def smallestSectionIndex (sections : List Section) : ℕ :=
  match sections with
  | [] => 0
  | s0 :: rest =>
    ((rest.enum.foldl
      (fun best si =>
        if si.2.width * si.2.height < best.2 then (si.1 + 1, si.2.width * si.2.height) else best)
      (0, s0.width * s0.height))).1

/-- One split step of the organic subdivision: replace the largest section by
its two halves, split along the longer axis at a random 30–70% position with a
20px gap. -/
def organicSplit (sections : List Section) (r : ℚ) : List Section :=
  let idx := largestSectionIndex sections
  let sec := sections.getD idx ⟨0, 0, 0, 0, none⟩
  let gap : ℚ := 20
  let pieces :=
    if sec.height < sec.width then
      let splitPosition := sec.width * (0.3 + r * 0.4)
      [⟨sec.x, sec.y, splitPosition - gap / 2, sec.height, none⟩,
       ⟨sec.x + splitPosition + gap / 2, sec.y, sec.width - splitPosition - gap / 2, sec.height, none⟩]
    else
      let splitPosition := sec.height * (0.3 + r * 0.4)
      [⟨sec.x, sec.y, sec.width, splitPosition - gap / 2, none⟩,
       ⟨sec.x, sec.y + splitPosition + gap / 2, sec.width, sec.height - splitPosition - gap / 2, none⟩]
  sections.take idx ++ pieces ++ sections.drop (idx + 1)

/-- The `while (sections.length < count)` loop of the organic subdivision
(each iteration grows the list by one, so `count` is also a fuel bound). -/
def organicSplitGo (rng : RNG) (count : ℕ) : ℕ → List Section → ℕ → List Section × ℕ
  | 0, sections, k => (sections, k)
  | fuel + 1, sections, k =>
    if sections.length < count then
      organicSplitGo rng count fuel (organicSplit sections (rng k)) (k + 1)
    else (sections, k)

/-- The `while (sections.length > count)` trim loop (no random pulls). -/
def organicTrimGo (count : ℕ) : ℕ → List Section → List Section
  | 0, sections => sections
  | fuel + 1, sections =>
    if count < sections.length then
      organicTrimGo count fuel (sections.eraseIdx (smallestSectionIndex sections))
    else sections

/-- The columnar division (case 1 of `divideCanvasIntoSections`): one random
pull per column (the jitter expression is evaluated even for the last column,
where its variation is zero). -/
def columnarSections (playAreaTop playAreaHeight playableWidth startX : ℚ)
    (count : ℕ) (rng : RNG) (k : ℕ) : List Section × ℕ :=
  ((List.range count).foldl
    (fun st (i : ℕ) =>
      let remainingWidth := st.2.1
      let currentX := st.2.2.1
      let isLast := i = count - 1
      let columnWidthBase := if isLast then remainingWidth else remainingWidth / ((count : ℚ) - i)
      let variation := if isLast then 0 else columnWidthBase * 0.3
      let columnWidth := columnWidthBase + (rng st.2.2.2 * variation * 2 - variation)
      (st.1 ++ [⟨currentX, playAreaTop, columnWidth, playAreaHeight, none⟩],
        (remainingWidth - columnWidth, currentX + columnWidth, st.2.2.2 + 1)))
    ([], (playableWidth, startX, k))
  |> (fun st => (st.1, st.2.2.2)))

/-- The rotation post-pass of `divideCanvasIntoSections`: a section smaller
than 60% of the play area in both dimensions may (for levels > 5, behind a 30%
random gate) receive a rotation of −15°..15°; the gate pull happens only when
`allowRotation` holds (the source's `&&` short-circuit). -/
def sectionRotationPass (curLevel : ℕ) (playableWidth playAreaHeight : ℚ)
    (rng : RNG) (sections : List Section) (k : ℕ) : List Section × ℕ :=
  sections.foldl
    (fun st sec =>
      let allowRotation := 5 < curLevel ∧ sec.width < playableWidth * 0.6 ∧
        sec.height < playAreaHeight * 0.6
      if allowRotation then
        if rng st.2 < 0.3 then
          (st.1 ++ [{ sec with rotation := some ((rng (st.2 + 1) * 30 - 15) * piJS / 180) }],
            st.2 + 2)
        else (st.1 ++ [sec], st.2 + 1)
      else (st.1 ++ [sec], st.2))
    ([], k)

/-- `divideCanvasIntoSections(count)`.  For `count ≥ 3` a `Math.floor` of a
random value outside `[0,1)` would match no `switch` case and leave the
section list empty; that branch is modelled faithfully (an empty list). -/
def divideCanvasIntoSections (cfg : GenConfig) (curLevel : ℕ) (rng : RNG)
    (count : ℕ) (k : ℕ) : List Section × ℕ :=
  let playAreaTop : ℚ := 120
  let playAreaBottom := cfg.canvasHeight - 80
  let playAreaHeight := playAreaBottom - playAreaTop
  let playableWidth := cfg.canvasWidth - horizontalMargin * 2
  let startX := horizontalMargin
  let jitterX := playableWidth * 0.1
  let jitterY := playAreaHeight * 0.1
  let core : List Section × ℕ :=
    if count = 1 then
      ([⟨startX, playAreaTop, playableWidth, playAreaHeight, none⟩], k)
    else if count = 2 then
      let useVerticalSplit := 0.5 < rng k
      if useVerticalSplit then
        let dividerY := playAreaTop + playAreaHeight / 2 + (rng (k + 1) * jitterY * 2 - jitterY)
        let gap := 30 + rng (k + 2) * 20
        ([⟨startX, playAreaTop, playableWidth, dividerY - playAreaTop - gap / 2, none⟩,
          ⟨startX, dividerY + gap / 2, playableWidth, playAreaBottom - dividerY - gap / 2, none⟩],
          k + 3)
      else
        let dividerX := startX + playableWidth / 2 + (rng (k + 1) * jitterX * 2 - jitterX)
        let gap := 30 + rng (k + 2) * 20
        ([⟨startX, playAreaTop, dividerX - startX - gap / 2, playAreaHeight, none⟩,
          ⟨dividerX + gap / 2, playAreaTop, startX + playableWidth - dividerX - gap / 2,
            playAreaHeight, none⟩], k + 3)
    else
      let divisionType : ℤ := ⌊rng k * 3⌋
      if divisionType = 0 then
        let rows := ceilSqrtNat count
        let cols := (count + rows - 1) / rows
        let baseWidth := playableWidth / (cols : ℚ)
        let baseHeight := playAreaHeight / (rows : ℚ)
        ((List.range count).foldl
          (fun st (i : ℕ) =>
            let row := i / cols
            let col := i % cols
            let xJitter := (rng st.2 * jitterX * 2 - jitterX) * 0.5
            let yJitter := (rng (st.2 + 1) * jitterY * 2 - jitterY) * 0.5
            let widthJitter := min (baseWidth * 0.2)
              (rng (st.2 + 2) * baseWidth * 0.4 - baseWidth * 0.2)
            let heightJitter := min (baseHeight * 0.2)
              (rng (st.2 + 3) * baseHeight * 0.4 - baseHeight * 0.2)
            (st.1 ++ [⟨startX + (col : ℚ) * baseWidth + xJitter,
              playAreaTop + (row : ℚ) * baseHeight + yJitter,
              baseWidth * 0.9 + widthJitter, baseHeight * 0.9 + heightJitter, none⟩],
              st.2 + 4))
          ([], k + 1))
      else if divisionType = 1 then
        columnarSections playAreaTop playAreaHeight playableWidth startX count rng (k + 1)
      else if divisionType = 2 then
        let full : Section := ⟨startX, playAreaTop, playableWidth, playAreaHeight, none⟩
        let split := organicSplitGo rng count count [full] (k + 1)
        (organicTrimGo count split.1.length split.1, split.2)
      else ([], k + 1)
  sectionRotationPass curLevel playableWidth playAreaHeight rng core.1 core.2

/-- `createOverlappingSections(count, levelNumber)`: the base division plus up
to `min(3, floor(level/4))` random overlapping sections (four pulls each). -/
def createOverlappingSections (cfg : GenConfig) (rng : RNG)
    (count levelNumber : ℕ) (k : ℕ) : List Section × ℕ :=
  let playAreaTop : ℚ := 120
  let playAreaBottom := cfg.canvasHeight - 80
  let playAreaHeight := playAreaBottom - playAreaTop
  let playableWidth := cfg.canvasWidth - horizontalMargin * 2
  let startX := horizontalMargin
  let base := divideCanvasIntoSections cfg levelNumber rng count k
  let overlapCount := min 3 (levelNumber / 4)
  (List.range overlapCount).foldl
    (fun st _ =>
      let sectionWidth := playableWidth * (0.3 + rng st.2 * 0.4)
      let sectionHeight := playAreaHeight * (0.3 + rng (st.2 + 1) * 0.4)
      let x := startX + rng (st.2 + 2) * (playableWidth - sectionWidth)
      let y := playAreaTop + rng (st.2 + 3) * (playAreaHeight - sectionHeight)
      (st.1 ++ [⟨x, y, sectionWidth, sectionHeight, none⟩], st.2 + 4))
    base

/-- Rotate a peg about a section center by the section's stored angle
(the rotation post-step of `generatePatternInSection`). -/
def rotatePeg (m : JsMath) (centerX centerY rot : ℚ) (peg : Peg) : Peg :=
  let dx := peg.x - centerX
  let dy := peg.y - centerY
  let c := m.cos rot
  let s := m.sin rot
  ⟨centerX + (dx * c - dy * s), centerY + (dx * s + dy * c), peg.colorIndex⟩

/-- `generatePatternInSection(patternFunc, section, pegSpacing, levelNumber)`:
dispatch on the pattern tag, compute the per-kind parameters, call the pattern,
then apply the section rotation if present.  A `none` tag models the JS call
with an `undefined` pattern function (no dispatch branch matches and the empty
list is returned).  For grid/checkerboard the column/row bounds come from
divisions whose JS value is `Infinity` when `pegSpacing = 0`; a positive
infinite row bound (or column bound with at least one row) never terminates. -/
def generatePatternInSection (cfg : GenConfig) (m : JsMath) (curLevel : ℕ) (rng : RNG)
    (pk : Option PatternKind) (sec : Section) (pegSpacing : ℚ) (levelNumber : ℕ)
    (k : ℕ) : Option (List Peg × ℕ) :=
  let centerX := sec.x + sec.width / 2
  let centerY := sec.y + sec.height / 2
  let main : Option (List Peg × ℕ) :=
    match pk with
    | none => some ([], k)
    | some .grid =>
      if pegSpacing = 0 then (if 0 < sec.height then none else some ([], k))
      else
        let cols : ℤ := ⌊sec.width / pegSpacing⌋
        let rows : ℤ := ⌊sec.height / pegSpacing⌋
        let startX := centerX - (cols : ℚ) * pegSpacing / 2
        let startY := centerY - (rows : ℚ) * pegSpacing / 2
        (if pegSpacing = 0 ∧ 0 < sec.width ∧ 0 < rows then none else
          some (createGridPattern curLevel rng startX startY cols rows pegSpacing 0.5 k))
    | some .checkerboard =>
      if pegSpacing = 0 then (if 0 < sec.height then none else some ([], k))
      else
        let cols : ℤ := ⌊sec.width / pegSpacing⌋
        let rows : ℤ := ⌊sec.height / pegSpacing⌋
        let startX := centerX - (cols : ℚ) * pegSpacing / 2
        let startY := centerY - (rows : ℚ) * pegSpacing / 2
        some (createCheckerboardPattern curLevel rng startX startY cols rows pegSpacing 0.5 k)
    | some .diamond =>
      createDiamondPattern curLevel rng centerX centerY
        (min sec.width sec.height * 0.45) pegSpacing k
    | some .spiral =>
      createSpiralPattern m curLevel rng centerX centerY
        (min sec.width sec.height * 0.45) (2 + levelNumber % 3) pegSpacing k
    | some .vortex =>
      createVortexPattern m curLevel centerX centerY
        (min sec.width sec.height * 0.45) (2 + levelNumber % 3) pegSpacing k
    | some .wave =>
      createWavePattern m curLevel rng sec.x sec.y sec.width sec.height pegSpacing
        (2 + levelNumber % 3) k
    | some .tunnel =>
      createTunnelPattern curLevel rng centerX centerY
        (min sec.width sec.height * 0.45) pegSpacing (levelNumber % 2 = 0) k
    | some .random =>
      if pegSpacing = 0 then (if 0 < sec.width * sec.height then none else some ([], k))
      else
        let count : ℤ := ⌊sec.width * sec.height / (pegSpacing * pegSpacing) * 0.3⌋
        some (createRandomPattern curLevel rng
          (sec.x + cfg.pegRadius * 2) (sec.y + cfg.pegRadius * 2)
          (sec.x + sec.width - cfg.pegRadius * 2) (sec.y + sec.height - cfg.pegRadius * 2)
          pegSpacing count k)
    | some .clustered =>
      some (createClusteredPattern m curLevel rng sec.x sec.y sec.width sec.height
        pegSpacing (1 + levelNumber / 5) k)
    | some .concentric =>
      createConcentricPattern m curLevel centerX centerY
        (min sec.width sec.height * 0.45) pegSpacing k
    | some .zigzag =>
      createZigzagPattern curLevel sec.x sec.y sec.width sec.height pegSpacing k
    | some .hourglass =>
      createHourglassPattern curLevel centerX centerY
        (min sec.width sec.height * 0.45) pegSpacing k
    | some .maze =>
      createMazePattern curLevel rng sec.x sec.y sec.width sec.height pegSpacing k
  match sec.rotation with
  | none => main
  | some rot => main.map (fun st => (st.1.map (rotatePeg m centerX centerY rot), st.2))

/-- `applyProceduralNoise(pegs, levelNumber, pegSpacing)`: skip for levels ≤ 2;
otherwise one removal pull per peg (the whole `filter` runs first), then two
jitter pulls per surviving peg (the `map`). -/
def applyProceduralNoise (rng : RNG) (pegs : List Peg) (levelNumber : ℕ)
    (pegSpacing : ℚ) (k : ℕ) : List Peg × ℕ :=
  if levelNumber ≤ 2 then (pegs, k)
  else
    let positionNoiseFactor := min 0.3 (0.05 + (levelNumber : ℚ) * 0.02)
    let removalProbability := min 0.3 (0.05 + (levelNumber : ℚ) * 0.01)
    let maxDisplacement := pegSpacing * positionNoiseFactor
    let kept := pegs.enum.filter (fun ip => decide (removalProbability < rng (k + ip.1)))
    let k1 := k + pegs.length
    ((kept.enum.map (fun jip =>
        let noiseX := (rng (k1 + 2 * jip.1) * 2 - 1) * maxDisplacement
        let noiseY := (rng (k1 + 2 * jip.1 + 1) * 2 - 1) * maxDisplacement
        Peg.mk (jip.2.2.x + noiseX) (jip.2.2.y + noiseY) jip.2.2.colorIndex)),
      k1 + 2 * kept.length)

/-- `createChallengeCluster(levelNumber, pegSpacing)`: a randomly placed dense
formation chosen by `levelNumber % 4`. -/
def createChallengeCluster (cfg : GenConfig) (m : JsMath) (levelNumber : ℕ)
    (rng : RNG) (pegSpacing : ℚ) (k : ℕ) : List Peg × ℕ :=
  let availableColors := getAvailableColors levelNumber
  let margin : ℚ := 150
  let x := margin + rng k * (cfg.canvasWidth - 2 * margin)
  let y := margin + rng (k + 1) * (cfg.canvasHeight - 2 * margin)
  let k := k + 2
  match levelNumber % 4 with
  | 0 =>
    let clusterSize := 5 + levelNumber / 3
    let radius := pegSpacing * 2
    (List.range clusterSize).foldl
      (fun st (i : ℕ) =>
        let angle := ((i : ℚ) / (clusterSize : ℚ)) * piJS * 2
        let distance := radius * rng st.2
        (st.1 ++ [⟨x + m.cos angle * distance, y + m.sin angle * distance,
          Int.ofNat (i % availableColors)⟩], st.2 + 1))
      ([], k)
  | 1 =>
    let lineLength := 5 + levelNumber / 3
    let angle := rng k * piJS
    ((List.range lineLength).map (fun (i : ℕ) =>
      Peg.mk (x + m.cos angle * i * pegSpacing * 0.8) (y + m.sin angle * i * pegSpacing * 0.8)
        (Int.ofNat (i % availableColors))), k + 1)
  | 2 =>
    let gridSize := 2 + levelNumber / 4
    (((List.range gridSize).flatMap (fun (row : ℕ) =>
        (List.range gridSize).map (fun (col : ℕ) =>
          Peg.mk (x + ((col : ℚ) - (gridSize : ℚ) / 2) * pegSpacing * 0.8)
            (y + ((row : ℚ) - (gridSize : ℚ) / 2) * pegSpacing * 0.8)
            (Int.ofNat ((row + col) % availableColors))))), k)
  | _ =>
    let spiralArms := 2 + levelNumber / 5
    let pointsPerArm := 3 + levelNumber / 4
    (((List.range spiralArms).flatMap (fun (arm : ℕ) =>
        let armOffset := ((arm : ℚ) * piJS * 2) / (spiralArms : ℚ)
        (List.range pointsPerArm).map (fun (i : ℕ) =>
          let distance := (i : ℚ) * pegSpacing * 0.7
          let angle := armOffset + (i : ℚ) * 0.4
          Peg.mk (x + m.cos angle * distance) (y + m.sin angle * distance)
            (Int.ofNat ((arm + i) % availableColors))))), k)

/-- Number of pegs of a given color in a list.  The source's counting loops
guard with `peg.colorIndex < availableColors`, which is redundant at the
indices in `[0, availableColors)` that are ever read back. -/
def countColor (pegs : List Peg) (c : ℤ) : ℕ :=
  (pegs.filter (fun p => p.colorIndex = c)).length

/-- The argmin scan `for (let i = 1; i < availableColors; i++) if
(colorCounts[i] < colorCounts[minColorIndex]) minColorIndex = i`. -/
def lowestCountColor (cnt : ℤ → ℤ) (availableColors : ℕ) : ℕ :=
  ((List.range availableColors).drop 1).foldl
    (fun best (i : ℕ) => if cnt (i : ℤ) < cnt (best : ℤ) then i else best) 0

/-- The attempt loop of `createFillerPegs`, fuelled by the `count * 20`
attempt budget.  A successful placement recounts the colors over the existing
and already-added pegs, picks the least-populated color with probability 0.7
(one pull) and a uniformly random color otherwise (a second pull). -/
def createFillerPegsGo (rng : RNG) (minX minY maxX maxY minDistance : ℚ)
    (count : ℤ) (existingPegs : List Peg) (availableColors : ℕ) :
    ℕ → List Peg → ℕ → List Peg × ℕ
  | 0, pegs, k => (pegs, k)
  | fuel + 1, pegs, k =>
    if (pegs.length : ℤ) < count then
      let x := minX + rng k * (maxX - minX)
      let y := minY + rng (k + 1) * (maxY - minY)
      let tooClose :=
        existingPegs.any (fun peg => distLtB peg.x peg.y x y minDistance) ||
          pegs.any (fun peg => distLtB peg.x peg.y x y minDistance)
      if tooClose then
        createFillerPegsGo rng minX minY maxX maxY minDistance count existingPegs
          availableColors fuel pegs (k + 2)
      else
        let cnt : ℤ → ℤ := fun c =>
          (countColor existingPegs c : ℤ) + (countColor pegs c : ℤ)
        let minColorIndex := lowestCountColor cnt availableColors
        if rng (k + 2) < 0.7 then
          createFillerPegsGo rng minX minY maxX maxY minDistance count existingPegs
            availableColors fuel (pegs ++ [⟨x, y, (minColorIndex : ℤ)⟩]) (k + 3)
        else
          createFillerPegsGo rng minX minY maxX maxY minDistance count existingPegs
            availableColors fuel
            (pegs ++ [⟨x, y, ⌊rng (k + 3) * (availableColors : ℚ)⌋⟩]) (k + 4)
    else (pegs, k)

/-- `createFillerPegs(minX, minY, maxX, maxY, minDistance, count, existingPegs,
availableColors)`. -/
def createFillerPegs (rng : RNG) (minX minY maxX maxY minDistance : ℚ)
    (count : ℤ) (existingPegs : List Peg) (availableColors : ℕ) (k : ℕ) :
    List Peg × ℕ :=
  createFillerPegsGo rng minX minY maxX maxY minDistance count existingPegs
    availableColors (count * 20).toNat [] k

/-- The body of `ensureMinimumPegs` with an explicit recursion-depth fuel.
The `0` fallback is unreachable for a positive peg radius (see
`c8_ensure_minimum_pegs_terminates`): each recursive call multiplies the
spacing by 0.9 and recursion requires `pegSpacing > pegRadius * 3`. -/
def ensureMinimumPegsAux (cfg : GenConfig) (rng : RNG) :
    ℕ → List Peg → ℤ → ℚ → ℕ → ℕ → ℕ → List Peg × ℕ
  | 0, pegs, _, _, _, _, k => (pegs, k)
  | fuel + 1, pegs, minCount, pegSpacing, levelNumber, availableColors, k =>
    if minCount ≤ (pegs.length : ℤ) then (pegs, k)
    else
      let pegsToAdd := minCount - pegs.length
      let filler := createFillerPegs rng horizontalMargin 120
        (cfg.canvasWidth - horizontalMargin) (cfg.canvasHeight - 80)
        (pegSpacing * 1.2) pegsToAdd pegs availableColors k
      let result := pegs ++ filler.1
      let filteredPegs :=
        removeEdgePegs cfg (removePegOverlaps result (pegSpacing * 0.8)) (cfg.pegRadius * 2)
      if (filteredPegs.length : ℤ) < minCount ∧ cfg.pegRadius * 3 < pegSpacing then
        ensureMinimumPegsAux cfg rng fuel filteredPegs minCount (pegSpacing * 0.9)
          levelNumber availableColors filler.2
      else (filteredPegs, filler.2)

/-- A fuel bound sufficient for the spacing-reduction recursion:
`spacing * 0.9 ^ n ≤ 3 * pegRadius` once `n ≥ 3 * spacing / pegRadius`. -/
def ensureFuel (cfg : GenConfig) (pegSpacing : ℚ) : ℕ :=
  (⌈3 * pegSpacing / cfg.pegRadius⌉).toNat + 1

/-- `ensureMinimumPegs(pegs, minCount, pegSpacing, levelNumber,
availableColors)`. -/
def ensureMinimumPegs (cfg : GenConfig) (rng : RNG) (pegs : List Peg)
    (minCount : ℤ) (pegSpacing : ℚ) (levelNumber availableColors : ℕ) (k : ℕ) :
    List Peg × ℕ :=
  ensureMinimumPegsAux cfg rng (ensureFuel cfg pegSpacing) pegs minCount pegSpacing
    levelNumber availableColors k

/-- `simpleNoise(x, y)`: `sin`-hash pseudo-noise in `[0, 1)`. -/
def simpleNoise (m : JsMath) (x y : ℚ) : ℚ :=
  let n := m.sin (x * 12.9898 + y * 78.233) * 43758.5453
  n - ⌊n⌋

/-- `hashFunction(x, y, seed)`: 32-bit xor hash reduced mod 967 (the JS `%`
keeps the dividend's sign, hence the `Math.abs`). -/
def hashFunction (x y : ℤ) (seed : ℕ) : ℤ :=
  |jsRemInt (jsXor32 (x * 3733 + y * 2053) ((seed : ℤ) * 4057)) 967|

/-- `horizontalGradient(peg, availableColors, levelNumber)`. -/
def horizontalGradient (cfg : GenConfig) (peg : Peg) (availableColors levelNumber : ℕ) : ℤ :=
  let normalizedX := (peg.x - horizontalMargin) / (cfg.canvasWidth - 2 * horizontalMargin)
  ⌊normalizedX * (availableColors : ℚ)⌋

/-- `verticalGradient(peg, availableColors, levelNumber)`. -/
def verticalGradient (cfg : GenConfig) (peg : Peg) (availableColors levelNumber : ℕ) : ℤ :=
  ⌊peg.y / cfg.canvasHeight * (availableColors : ℚ)⌋

/-- `radialGradient(peg, availableColors, levelNumber)`. -/
def radialGradient (cfg : GenConfig) (m : JsMath) (peg : Peg)
    (availableColors levelNumber : ℕ) : ℤ :=
  let centerX := cfg.canvasWidth / 2
  let centerY := cfg.canvasHeight / 2
  let dx := peg.x - centerX
  let dy := peg.y - centerY
  let distance := m.sqrt (dx * dx + dy * dy)
  let maxDistance := m.sqrt (centerX * centerX + centerY * centerY)
  ⌊distance / maxDistance * (availableColors : ℚ)⌋

/-- `stripeGradient(peg, availableColors, levelNumber)`. -/
def stripeGradient (peg : Peg) (availableColors levelNumber : ℕ) : ℤ :=
  let stripeSize : ℚ := 40 + ((levelNumber % 3 : ℕ) : ℚ) * 15
  jsRemInt ⌊peg.x / stripeSize⌋ (availableColors : ℤ)

/-- `noiseGradient(peg, availableColors, levelNumber)`. -/
def noiseGradient (m : JsMath) (peg : Peg) (availableColors levelNumber : ℕ) : ℤ :=
  let noiseScale := 0.01 + (levelNumber : ℚ) * 0.002
  ⌊simpleNoise m (peg.x * noiseScale) (peg.y * noiseScale) * (availableColors : ℚ)⌋

/-- `spiralGradient(peg, availableColors, levelNumber)`: spiral value from
`atan2` angle plus scaled distance, reduced by the sign-preserving JS `% 1`,
then scaled to a color index.  For a peg left of and slightly below the canvas
center the spiral value is negative, `% 1` keeps it negative, and the result is
a negative color index. -/
def spiralGradient (cfg : GenConfig) (m : JsMath) (peg : Peg)
    (availableColors levelNumber : ℕ) : ℤ :=
  let centerX := cfg.canvasWidth / 2
  let centerY := cfg.canvasHeight / 2
  let dx := peg.x - centerX
  let dy := peg.y - centerY
  let angle := m.atan2 dy dx
  let distance := m.sqrt (dx * dx + dy * dy)
  let spiralValue := (angle + distance * 0.01 * (levelNumber : ℚ)) / (piJS * 2)
  ⌊jsFmod spiralValue 1 * (availableColors : ℚ)⌋

/-- `patternGradient(peg, availableColors, levelNumber)`.  (`cellSize = 0`
happens only at exactly level 50, where the JS floor of `x / 0` is `Infinity`
and the 32-bit conversion in the hash maps it to 0; the `ℚ` division by zero
used here gives the same hash input 0.) -/
def patternGradient (peg : Peg) (availableColors levelNumber : ℕ) : ℤ :=
  let cellSize : ℚ := 100 - (levelNumber : ℚ) * 2
  let cellX := ⌊peg.x / cellSize⌋
  let cellY := ⌊peg.y / cellSize⌋
  jsRemInt (hashFunction cellX cellY levelNumber) (availableColors : ℤ)

/-- The `gradientTypes` array of `applyColorGradient`, indexed 0–6.  An index
outside that range (reachable only for `rng` values outside `[0,1)`, where the
JS call would throw on `undefined`) falls back to the peg's own color. -/
def gradientAt (cfg : GenConfig) (m : JsMath) (i : ℤ) :
    Peg → ℕ → ℕ → ℤ :=
  if i = 0 then horizontalGradient cfg
  else if i = 1 then verticalGradient cfg
  else if i = 2 then radialGradient cfg m
  else if i = 3 then fun peg a l => stripeGradient peg a l
  else if i = 4 then noiseGradient m
  else if i = 5 then spiralGradient cfg m
  else if i = 6 then fun peg a l => patternGradient peg a l
  else fun peg _ _ => peg.colorIndex

/-- `blendColorGradients(pegs, gradientFunc1, gradientFunc2, availableColors,
levelNumber)`: one blend-factor pull, then a per-peg recoloring; only the
noise blend (`levelNumber % 3 == 2`) pulls one random value per peg. -/
def blendColorGradients (cfg : GenConfig) (m : JsMath) (rng : RNG)
    (pegs : List Peg) (g1 g2 : Peg → ℕ → ℕ → ℤ)
    (availableColors levelNumber : ℕ) (k : ℕ) : List Peg × ℕ :=
  let blendFactor := 0.5 + (rng k * 0.4 - 0.2)
  let k1 := k + 1
  let blendType := levelNumber % 3
  if blendType = 2 then
    (pegs.enum.map (fun ip =>
      let color1 := g1 ip.2 availableColors levelNumber
      let color2 := g2 ip.2 availableColors levelNumber
      { ip.2 with colorIndex := if rng (k1 + ip.1) < blendFactor then color1 else color2 }),
      k1 + pegs.length)
  else
    (pegs.map (fun peg =>
      let color1 := g1 peg availableColors levelNumber
      let color2 := g2 peg availableColors levelNumber
      if blendType = 0 then
        { peg with colorIndex :=
            if jsRemInt (⌊peg.x / 50⌋ + ⌊peg.y / 50⌋) 2 = 0 then color1 else color2 }
      else
        let distanceFromCenter := m.sqrt ((peg.x - cfg.canvasWidth / 2) ^ 2 +
          (peg.y - cfg.canvasHeight / 2) ^ 2)
        let normalizedDistance := distanceFromCenter /
          m.sqrt ((cfg.canvasWidth / 2) ^ 2 + (cfg.canvasHeight / 2) ^ 2)
        { peg with colorIndex :=
            if normalizedDistance < blendFactor then color1 else color2 }), k1)

/-- `applyColorGradient(pegs, availableColors, levelNumber)`: choose a gradient
(one pull); for levels > 6 a 40% gate (one pull) may select a second gradient
(one pull) and blend the two; otherwise apply the single gradient as a map. -/
def applyColorGradient (cfg : GenConfig) (m : JsMath) (rng : RNG)
    (pegs : List Peg) (availableColors levelNumber : ℕ) (k : ℕ) : List Peg × ℕ :=
  let availableTypes : ℕ := min 7 (2 + levelNumber / 2)
  let gradientType := jsRemInt ((levelNumber : ℤ) + ⌊rng k * 3⌋) (availableTypes : ℤ)
  let single : ℕ → List Peg × ℕ := fun k2 =>
    (pegs.map (fun peg =>
      { peg with colorIndex := gradientAt cfg m gradientType peg availableColors levelNumber }),
      k2)
  if 6 < levelNumber then
    if rng (k + 1) < 0.4 then
      let secondType := jsRemInt
        (gradientType + 1 + ⌊rng (k + 2) * ((availableTypes : ℚ) - 1)⌋) (availableTypes : ℤ)
      blendColorGradients cfg m rng pegs (gradientAt cfg m gradientType)
        (gradientAt cfg m secondType) availableColors levelNumber (k + 3)
    else single (k + 2)
  else single (k + 1)

/-- The clamp stage of `balanceColors`: every peg with `colorIndex ≥
availableColors` is reassigned to the currently least-populated available
color, with a running count.  The source's initial count guards with
`colorIndex < availableColors`; only the entries in `[0, availableColors)` are
ever read back, and on those the guard is redundant, so the counts function is
seeded with plain per-color counts. -/
def balanceClampGo (availableColors : ℕ) :
    List Peg → (ℤ → ℤ) → List Peg → List Peg
  | [], _, acc => acc
  | peg :: rest, counts, acc =>
    if (availableColors : ℤ) ≤ peg.colorIndex then
      let minColorIndex := lowestCountColor counts availableColors
      let counts2 : ℤ → ℤ := fun c =>
        if c = peg.colorIndex then counts c - 1
        else if c = (minColorIndex : ℤ) then counts c + 1
        else counts c
      balanceClampGo availableColors rest counts2
        (acc ++ [{ peg with colorIndex := (minColorIndex : ℤ) }])
    else balanceClampGo availableColors rest counts (acc ++ [peg])

/-- The first conversion pass of `ensureMinimumColorCounts`: convert pegs whose
color is in the excess list to the deficient color, up to `needed` many,
scanning in list order. -/
def convertFromExcess (excess : List ℕ) (color : ℕ) (needed : ℤ) :
    List Peg → (ℤ → ℤ) → ℤ → List Peg × (ℤ → ℤ) × ℤ
  | [], counts, converted => ([], counts, converted)
  | peg :: rest, counts, converted =>
    if converted < needed ∧ excess.any (fun c => (c : ℤ) = peg.colorIndex) then
      let counts2 : ℤ → ℤ := fun c =>
        if c = peg.colorIndex then counts c - 1
        else if c = (color : ℤ) then counts c + 1
        else counts c
      let r := convertFromExcess excess color needed rest counts2 (converted + 1)
      ({ peg with colorIndex := (color : ℤ) } :: r.1, r.2)
    else
      let r := convertFromExcess excess color needed rest counts converted
      (peg :: r.1, r.2)

/-- The fallback conversion passes of `ensureMinimumColorCounts`: convert any
peg whose color differs from the deficient color (protecting color 5 on
level 3), up to `needed` many, scanning in list order. -/
def convertFromAny (levelNumber color : ℕ) (needed : ℤ) :
    List Peg → (ℤ → ℤ) → ℤ → List Peg × (ℤ → ℤ) × ℤ
  | [], counts, converted => ([], counts, converted)
  | peg :: rest, counts, converted =>
    if converted < needed ∧ peg.colorIndex ≠ (color : ℤ) ∧
        ¬ (levelNumber = 3 ∧ peg.colorIndex = 5) then
      let counts2 : ℤ → ℤ := fun c =>
        if c = peg.colorIndex then counts c - 1
        else if c = (color : ℤ) then counts c + 1
        else counts c
      let r := convertFromAny levelNumber color needed rest counts2 (converted + 1)
      ({ peg with colorIndex := (color : ℤ) } :: r.1, r.2)
    else
      let r := convertFromAny levelNumber color needed rest counts converted
      (peg :: r.1, r.2)

/-- Per-color enforcement step of `ensureMinimumColorCounts`. -/
def enforceColorStep (availableColors levelNumber : ℕ) (minPerColor extraMinForCyan : ℤ)
    (st : List Peg × (ℤ → ℤ)) (color : ℕ) : List Peg × (ℤ → ℤ) :=
  if availableColors ≤ color then st
  else
    let adjustedMinimum :=
      if color = 5 ∧ levelNumber = 3 then minPerColor + extraMinForCyan else minPerColor
    if st.2 (color : ℤ) < adjustedMinimum then
      let needed := adjustedMinimum - st.2 (color : ℤ)
      let excessColors := (List.range availableColors).filter (fun c =>
        decide (¬ (levelNumber = 3 ∧ c = 5)) && decide (c ≠ color) &&
          decide (minPerColor + 2 < st.2 (c : ℤ)))
      if ¬ excessColors.isEmpty then
        let r1 := convertFromExcess excessColors color needed st.1 st.2 0
        if r1.2.2 < needed then
          let r2 := convertFromAny levelNumber color needed r1.1 r1.2.1 r1.2.2
          (r2.1, r2.2.1)
        else (r1.1, r1.2.1)
      else
        let r3 := convertFromAny levelNumber color needed st.1 st.2 0
        (r3.1, r3.2.1)
    else st

/-- `ensureMinimumColorCounts(pegs, availableColors, levelNumber)`: normalise
out-of-range colors by `%`, count, convert toward the per-color minimum
(processing color 5 first on level 3), and re-clamp in a final pass.  Colors
below `0` pass every `>= availableColors` test and are counted under keys that
are never read back, exactly as the source's object-keyed array writes. -/
def ensureMinimumColorCounts (pegs : List Peg) (availableColors levelNumber : ℕ) :
    List Peg :=
  let minPerColor : ℤ := max 3 ⌊5 - (levelNumber : ℚ) * 0.1⌋
  let extraMinForCyan : ℤ := if levelNumber = 3 then 2 else 0
  let pegs0 := pegs.map (fun p =>
    if (availableColors : ℤ) ≤ p.colorIndex then
      { p with colorIndex := jsRemInt p.colorIndex (availableColors : ℤ) }
    else p)
  let counts0 : ℤ → ℤ := fun c => (countColor pegs0 c : ℤ)
  let colorOrder : List ℕ :=
    if levelNumber = 3 then [5, 0, 1, 2, 3, 4] else List.range availableColors
  let final := colorOrder.foldl
    (enforceColorStep availableColors levelNumber minPerColor extraMinForCyan)
    (pegs0, counts0)
  final.1.map (fun p =>
    if (availableColors : ℤ) ≤ p.colorIndex then
      { p with colorIndex := jsRemInt p.colorIndex (availableColors : ℤ) }
    else p)

/-- `balanceColors(pegs, availableColors, levelNumber)`: clamp stage, optional
gradient stage (levels > 3), then minimum-per-color enforcement. -/
def balanceColors (cfg : GenConfig) (m : JsMath) (rng : RNG) (pegs : List Peg)
    (availableColors levelNumber : ℕ) (k : ℕ) : List Peg × ℕ :=
  let counts0 : ℤ → ℤ := fun c => (countColor pegs c : ℤ)
  let balanced := balanceClampGo availableColors pegs counts0 []
  let colorPatterned :=
    if 3 < levelNumber then
      applyColorGradient cfg m rng balanced availableColors levelNumber k
    else (balanced, k)
  (ensureMinimumColorCounts colorPatterned.1 availableColors levelNumber, colorPatterned.2)

/-- A placeholder section for list accesses that are out of range in the
source only when a `Math.random` result lies outside `[0,1)` (where the JS
code would fault on `undefined`). -/
def junkSection : Section := ⟨0, 0, 0, 0, none⟩

/-- `generateSimpleLevel(levelNumber, pegSpacing, availablePatterns)` (level 1):
a single centered grid, density 0.8, 6 rows, top at `y = 180`.  The column
bound `Math.floor(playableWidth / pegSpacing)` is infinite when
`pegSpacing = 0` with a positive playable width. -/
def generateSimpleLevel (cfg : GenConfig) (rng : RNG) (levelNumber : ℕ)
    (pegSpacing : ℚ) (availablePatterns : List PatternKind) (k : ℕ) :
    Option (List Peg × ℕ) :=
  let centerX := cfg.canvasWidth / 2
  let playableWidth := cfg.canvasWidth - horizontalMargin * 2
  if pegSpacing = 0 then (if 0 < playableWidth then none else some ([], k))
  else
    let gridCols : ℤ := ⌊playableWidth / pegSpacing⌋
    let gridRows : ℤ := 6
    let actualGridWidth := (gridCols : ℚ) * pegSpacing
    let centeredGridStartX := centerX - actualGridWidth / 2
    some (createGridPattern levelNumber rng centeredGridStartX 180 gridCols gridRows
      pegSpacing 0.8 k)

/-- `generateIntermediateLevel(levelNumber, pegSpacing, availablePatterns)`
(level 2): two sections, each filled with one of the simple patterns
(`grid`, `checkerboard`, `diamond`, with `random` appended when fewer than two
are available). -/
def generateIntermediateLevel (cfg : GenConfig) (m : JsMath) (rng : RNG)
    (levelNumber : ℕ) (pegSpacing : ℚ) (availablePatterns : List PatternKind)
    (k : ℕ) : Option (List Peg × ℕ) :=
  let simple0 := ([.grid, .checkerboard, .diamond] : List PatternKind).filter
    (fun p => availablePatterns.contains p)
  let simplePatterns := if simple0.length < 2 then simple0 ++ [.random] else simple0
  let pattern1 := simplePatterns.getD 0 .random
  let pattern2 := simplePatterns.getD (if 1 < simplePatterns.length then 1 else 0) .random
  let sections := divideCanvasIntoSections cfg levelNumber rng 2 k
  match generatePatternInSection cfg m levelNumber rng (some pattern1)
      (sections.1.getD 0 junkSection) pegSpacing levelNumber sections.2 with
  | none => none
  | some (pattern1Pegs, k1) =>
    match generatePatternInSection cfg m levelNumber rng (some pattern2)
        (sections.1.getD 1 junkSection) pegSpacing levelNumber k1 with
    | none => none
    | some (pattern2Pegs, k2) => some (pattern1Pegs ++ pattern2Pegs, k2)

/-- The selection loop of `generateAdvancedLevel`: draw without replacement by
splicing the drawn index out (no pull when the pool is empty). -/
def advancedSelectGo (rng : RNG) :
    ℕ → List PatternKind → List PatternKind → ℕ → List PatternKind × ℕ
  | 0, _, selected, k => (selected, k)
  | rem + 1, pool, selected, k =>
    if 0 < pool.length then
      let index := (⌊rng k * (pool.length : ℚ)⌋).toNat
      advancedSelectGo rng rem (pool.eraseIdx index) (selected ++ [pool.getD index .grid])
        (k + 1)
    else advancedSelectGo rng rem pool selected k

/-- `generateProceduralLevel(levelNumber, patternCount, availablePatterns,
pegSpacing)`: sections (overlapping for levels > 7), weighted pattern
selection, per-section pattern generation with procedural noise, extra random
pegs, a challenge cluster for levels > 5, then overlap and edge filtering. -/
def generateProceduralLevel (cfg : GenConfig) (m : JsMath) (rng : RNG)
    (levelNumber patternCount : ℕ) (availablePatterns : List PatternKind)
    (pegSpacing : ℚ) (k : ℕ) : Option (List Peg × ℕ) :=
  let sections :=
    if 7 < levelNumber then createOverlappingSections cfg rng patternCount levelNumber k
    else divideCanvasIntoSections cfg levelNumber rng patternCount k
  let selectedPatterns := selectRandomPatternsForLevel availablePatterns patternCount
    levelNumber rng sections.2
  let patterned := (List.range patternCount).foldl
    (fun (acc : Option (List Peg × ℕ)) (i : ℕ) =>
      match acc with
      | none => none
      | some (pegs, kk) =>
        match generatePatternInSection cfg m levelNumber rng (selectedPatterns.1.get? i)
            (sections.1.getD i junkSection) pegSpacing levelNumber kk with
        | none => none
        | some (patternPegs, kk1) =>
          let noisy := applyProceduralNoise rng patternPegs levelNumber pegSpacing kk1
          some (pegs ++ noisy.1, noisy.2))
    (some ([], selectedPatterns.2))
  match patterned with
  | none => none
  | some (pegs, k1) =>
    let randomPegCount : ℕ := 10 + levelNumber / 2 * 5
    let randomPegs := createRandomPattern levelNumber rng horizontalMargin 150
      (cfg.canvasWidth - horizontalMargin) (cfg.canvasHeight - 150)
      (pegSpacing * 1.5) (randomPegCount : ℤ) k1
    let pegs2 := pegs ++ randomPegs.1
    let withChallenge :=
      if 5 < levelNumber then
        let cc := createChallengeCluster cfg m levelNumber rng (pegSpacing * 0.8) randomPegs.2
        (pegs2 ++ cc.1, cc.2)
      else (pegs2, randomPegs.2)
    some (removeEdgePegs cfg
      (removePegOverlaps withChallenge.1 (pegSpacing * 0.8)) (cfg.pegRadius * 2),
      withChallenge.2)

/-- `generateAdvancedLevel(levelNumber, pegSpacing, availablePatterns)`
(level 3): 2–3 medium-difficulty patterns chosen without replacement, then the
procedural generator. -/
def generateAdvancedLevel (cfg : GenConfig) (m : JsMath) (rng : RNG)
    (levelNumber : ℕ) (pegSpacing : ℚ) (availablePatterns : List PatternKind)
    (k : ℕ) : Option (List Peg × ℕ) :=
  let patternCount := 2 + (if 0.5 < rng k then 1 else 0)
  let mediumPatterns := availablePatterns.filter (fun p =>
    decide (2 ≤ patternDifficulty p) && decide (patternDifficulty p ≤ 6))
  let patterns0 :=
    if patternCount ≤ mediumPatterns.length then mediumPatterns else availablePatterns
  let sel := advancedSelectGo rng patternCount patterns0 [] (k + 1)
  generateProceduralLevel cfg m rng levelNumber sel.1.length sel.1 pegSpacing sel.2

/-- `generateLevel(levelNumber)`: level-specific assembly, minimum-peg top-up,
then color balancing.  `none` models a call that never returns normally. -/
def generateLevel (cfg : GenConfig) (m : JsMath) (rng : RNG) (levelNumber : ℕ)
    (k : ℕ) : Option (List Peg × ℕ) :=
  let difficultyFactor : ℕ := min 10 (levelNumber / 2 + 1)
  let pegSpacing := levelPegSpacing cfg levelNumber
  let patternCount : ℕ := min maxPatterns (1 + levelNumber / 2)
  let availablePatterns := selectPatternsByDifficulty difficultyFactor
  let minPegCount := getMinimumPegCount levelNumber
  let availableColors := getAvailableColors levelNumber
  let assembled : Option (List Peg × ℕ) :=
    if levelNumber = 1 then
      generateSimpleLevel cfg rng levelNumber pegSpacing availablePatterns k
    else if levelNumber = 2 then
      generateIntermediateLevel cfg m rng levelNumber pegSpacing availablePatterns k
    else if levelNumber = 3 then
      generateAdvancedLevel cfg m rng levelNumber pegSpacing availablePatterns k
    else
      generateProceduralLevel cfg m rng levelNumber patternCount availablePatterns
        pegSpacing k
  match assembled with
  | none => none
  | some (pegs, k1) =>
    let ensured :=
      if (pegs.length : ℤ) < minPegCount then
        ensureMinimumPegs cfg rng pegs minPegCount pegSpacing levelNumber
          availableColors k1
      else (pegs, k1)
    some (balanceColors cfg m rng ensured.1 availableColors levelNumber ensured.2)

/-- The peg list returned by `generateLevel` (dropping the final random-stream
index). -/
def generateLevelPegs (cfg : GenConfig) (m : JsMath) (rng : RNG)
    (levelNumber : ℕ) : Option (List Peg) :=
  (generateLevel cfg m rng levelNumber 0).map (fun st => st.1)

/-- A constant random stream (each `Math.random()` returning 0.5), a possible
outcome of the generator's randomness. -/
def rngHalf : RNG := fun _ => 1/2

/-- A trivial instance of the abstract math interface; the executions evaluated
with it never call `sin`, `cos`, `atan2` or `sqrt` (level-1 runs use no
gradients, no rotation and only squared-distance comparisons). -/
def mZero : JsMath := ⟨fun _ => 0, fun _ => 0, fun _ _ => 0, fun _ => 0⟩

/-- The grid-phase random values of the `rngC3` stream (level 1, 12×6 cells,
row-major; an excluded cell consumes one pull of 0.9, an included cell
consumes 0.5 and then its color pull): row 0 places 4 pegs of color 0, 6 of
color 1 and 1 of color 2 in columns 1–11; row 1 places 5 pegs of color 2 and
3 of color 3 in columns 1–8; all other cells are excluded. -/
def rngC3List : List ℚ :=
  [9/10] ++ (List.replicate 4 [(1:ℚ)/2, 0] ++ List.replicate 6 [(1:ℚ)/2, 1/4]
    ++ [[(1:ℚ)/2, 1/2]]).join
  ++ [9/10] ++ (List.replicate 5 [(1:ℚ)/2, 1/2] ++ List.replicate 3 [(1:ℚ)/2, 3/4]).join
  ++ List.replicate 3 ((9:ℚ)/10)
  ++ List.replicate 48 ((9:ℚ)/10)

/-- A random stream for which `generateLevel(1)` assembles 19 grid pegs with
color counts (4, 6, 6, 3) and every filler attempt of `ensureMinimumPegs`
lands exactly on the grid peg at (159, 180) and is rejected
(`x`-pull 59/600, `y`-pull 2/15). -/
def rngC3 : RNG := fun n =>
  if n < 91 then rngC3List.getD n 0
  else if (n - 91) % 2 = 0 then 59/600 else 2/15

/-- A random stream for which `generateLevel(1)` assembles 33 grid pegs
(columns 1–11, rows 0–2, all color 2), every filler attempt fails on the
grid peg at (159, 180) except the first attempt of the fifth
`ensureMinimumPegs` round (spacing 31.62402), which places a peg at
(679, 276.4) — at distance exactly 38 from the grid peg at (641, 276.4). -/
def rngC4 : RNG := fun n =>
  if n < 69 then (if n % 23 = 0 then 9/10 else 1/2)
  else if n < 105 then 9/10
  else if n < 425 then (if (n - 105) % 2 = 0 then 59/600 else 2/15)
  else if n = 425 then 193/200
  else if n = 426 then 391/1125
  else if n = 427 then 0
  else if (n - 428) % 2 = 0 then 59/600 else 2/15

/-- A constant-zero random stream. -/
def rngZero : RNG := fun _ => 0

/-- A 25-peg list with four pegs of each color 0–5 and one peg carrying the
negative provisional color −2 that `spiralGradient` produces at (390, 315) on
level 9. -/
def c1pegs : List Peg :=
  (List.range 24).map (fun i => ⟨0, 0, ((i % 6 : ℕ) : ℤ)⟩) ++ [⟨390, 315, -2⟩]

/-- A concrete rational instance of the math interface agreeing with the real
`Math.atan2` and `Math.sqrt` to within the coarse bounds used by
`c1_negative_color_escapes` (`atan2(-10,-10) = -3π/4 ≈ -2.356`,
`sqrt 200 ≈ 14.142`). -/
def mC1 : JsMath := ⟨fun _ => 0, fun _ => 0, fun _ _ => -59/25, fun _ => 283/20⟩

/-- The position of a peg, forgetting its color (the projection under which
the balancing stages are frame-preserving). -/
def pegCoords (p : Peg) : ℚ × ℚ := (p.x, p.y)

/-- The filter predicate of `removeEdgePegs` as a standalone test. -/
def edgeOK (cfg : GenConfig) (minEdgeDistance : ℚ) (peg : Peg) : Bool :=
  decide (horizontalMargin + minEdgeDistance ≤ peg.x) &&
  decide (peg.x ≤ cfg.canvasWidth - horizontalMargin - minEdgeDistance) &&
  decide (minEdgeDistance ≤ peg.y) &&
  decide (peg.y ≤ cfg.canvasHeight - minEdgeDistance)

/-- Sixteen pegs, four of each of the colors `0‥3`. -/
def c3wpegs : List Peg :=
  (List.range 16).map (fun i => ⟨0, 0, ((i % 4 : ℕ) : ℤ)⟩)

/-! # Theorems -/

/-- C6: `getAvailableColors` is the step function returning 4 for levels ≤ 2
(including the degenerate level 0), 6 for levels 3–10, 8 for levels ≥ 11, and
in particular always returns one of 4, 6, 8. -/
theorem c6_available_colors_step (n : ℕ) :
    getAvailableColors n = (if 11 ≤ n then 8 else if 3 ≤ n then 6 else 4) ∧
    (getAvailableColors n = 4 ∨ getAvailableColors n = 6 ∨ getAvailableColors n = 8) := by
  have h : getAvailableColors n = (if 11 ≤ n then 8 else if 3 ≤ n then 6 else 4) := by
    simp only [getAvailableColors, colorProgression, getAvailableColorsGo]
    split_ifs <;> omega
  refine ⟨h, ?_⟩
  rw [h]; split_ifs <;> simp

/-- Clamp bound helper: `min 0.85 (max 0.2 x)` always lies in `[0.2, 0.85]`. -/
theorem thresholdClamp_bounds (x : ℚ) :
    1/5 ≤ min 0.85 (max 0.2 x) ∧ min 0.85 (max 0.2 x) ≤ 17/20 := by
  constructor
  · refine le_min (by norm_num) (le_trans (show (1:ℚ)/5 ≤ 0.2 by norm_num) (le_max_left _ _))
  · refine le_trans (min_le_left _ _) (by norm_num)

/-- The pre-jitter base threshold is non-decreasing in the level number. -/
theorem scaledThreshold_mono (n : ℕ) : scaledThreshold n ≤ scaledThreshold (n + 1) := by
  rcases Nat.lt_or_ge n 16 with h | h
  · interval_cases n <;> norm_num [scaledThreshold]
  · have h5 : ¬ n ≤ 5 := by omega
    have h10 : ¬ n ≤ 10 := by omega
    have h15 : ¬ n ≤ 15 := by omega
    have h5' : ¬ n + 1 ≤ 5 := by omega
    have h10' : ¬ n + 1 ≤ 10 := by omega
    have h15' : ¬ n + 1 ≤ 15 := by omega
    simp only [scaledThreshold, h5, h10, h15, h5', h10', h15', if_false]
    refine min_le_min le_rfl ?_
    push_cast
    linarith

/-- The pre-jitter base threshold never exceeds `0.80`. -/
theorem scaledThreshold_le (n : ℕ) : scaledThreshold n ≤ 4/5 := by
  rcases Nat.lt_or_ge n 16 with h | h
  · interval_cases n <;> norm_num [scaledThreshold]
  · have h5 : ¬ n ≤ 5 := by omega
    have h10 : ¬ n ≤ 10 := by omega
    have h15 : ¬ n ≤ 15 := by omega
    simp only [scaledThreshold, h5, h10, h15, if_false]
    refine le_trans (min_le_left _ _) (by norm_num)

/-- C5: every threshold entry at an index `< getAvailableColors n` lies within
`[0.20, 0.85]` and every entry at an index `≥ getAvailableColors n` equals `0`,
for every level and every outcome of the jitter randomness; and the pre-jitter
base threshold `scaledThreshold` is non-decreasing in the level, capped at
`0.80`, with the four bands attaining `0.25 → 0.40` (levels 1–5),
`0.40 → 0.55` (6–10), `0.55 → 0.70` (11–15), `0.70 → 0.80` (16+). -/
theorem c5_thresholds (n : ℕ) (rng : RNG) (k : ℕ) :
    ((List.range 8).all (fun i =>
        if i < getAvailableColors n then
          decide (1/5 ≤ (getColorThresholds n rng k).getD i 0) &&
            decide ((getColorThresholds n rng k).getD i 0 ≤ 17/20)
        else decide ((getColorThresholds n rng k).getD i 0 = 0)) = true) ∧
    scaledThreshold n ≤ scaledThreshold (n + 1) ∧
    scaledThreshold n ≤ 4/5 ∧
    scaledThreshold 1 = 1/4 ∧ scaledThreshold 5 = 2/5 ∧
    scaledThreshold 6 = 2/5 ∧ scaledThreshold 10 = 11/20 ∧
    scaledThreshold 11 = 11/20 ∧ scaledThreshold 15 = 7/10 ∧
    scaledThreshold 16 = 7/10 ∧ scaledThreshold 26 = 4/5 := by
  refine ⟨?_, scaledThreshold_mono n, scaledThreshold_le n,
    by norm_num [scaledThreshold], by norm_num [scaledThreshold],
    by norm_num [scaledThreshold], by norm_num [scaledThreshold],
    by norm_num [scaledThreshold], by norm_num [scaledThreshold],
    by norm_num [scaledThreshold], by norm_num [scaledThreshold]⟩
  rw [List.all_eq_true]
  intro i hi
  rw [List.mem_range] at hi
  have hg : (getColorThresholds n rng k).getD i 0 = thresholdEntry n rng k i := by
    simp [getColorThresholds, List.getD_eq_getElem?_getD, hi]
  by_cases hlt : i < getAvailableColors n
  · simp only [hlt, if_pos, hg]
    simp only [thresholdEntry, hlt, if_pos]
    have := thresholdClamp_bounds (scaledThreshold n +
      (if 3 < n then
        (if i = 0 then 0.05
         else if i = getAvailableColors n - 1 then -0.03 else 0)
          + (rng (k + i) * 0.06 - 0.03)
       else 0))
    simp only [Bool.and_eq_true, decide_eq_true_eq]
    exact this
  · simp only [hlt, if_neg, if_false, hg]
    simp [thresholdEntry, hlt]

/-- C2, counterexample: for `levelNumber = 1` there is an outcome of the
randomness (every `Math.random()` returning 0.5) under which `generateLevel`
returns a peg violating the claimed edge clearance: the level-1 grid starts at
`x = 110.8 < horizontalMargin + pegRadius*2 = 120`, and the level-1 path
applies no edge filtering when the assembled count meets the minimum. -/
theorem c2_level1_edge_counterexample :
    ¬ (∀ peg ∈ (generateLevelPegs cfg800 mZero rngHalf 1).getD [],
        horizontalMargin + cfg800.pegRadius * 2 ≤ peg.x ∧
        peg.x ≤ cfg800.canvasWidth - horizontalMargin - cfg800.pegRadius * 2 ∧
        cfg800.pegRadius * 2 ≤ peg.y ∧
        peg.y ≤ cfg800.canvasHeight - cfg800.pegRadius * 2) := by
  decide!

/-- C3, counterexample: for `levelNumber = 1` there is an outcome of the
randomness under which the returned level has only 3 pegs of color 0, below
the claimed minimum `max(3, floor(5 - 1*0.1)) = 4`: the enforcement pass for
color 3 "steals" a color-0 peg after color 0 was already checked. -/
theorem c3_per_color_minimum_counterexample :
    ¬ (∀ c < getAvailableColors 1,
        max 3 ⌊5 - (1 : ℚ) * 0.1⌋ ≤
          (countColor ((generateLevelPegs cfg800 mZero rngC3 1).getD []) (c : ℤ) : ℤ)) := by
  decide!

/-- C4, counterexample: for `levelNumber = 1` there is an outcome of the
randomness under which two returned pegs are at distance 38, closer than the
claimed minimum separation `0.8 * pegSpacing = 0.8 * 48.2 = 38.56`: the
spacing-reduction recursion of `ensureMinimumPegs` runs its final filtering
pass with a smaller threshold. -/
theorem c4_overlap_counterexample :
    ¬ List.Pairwise (fun p q =>
        (0.8 * levelPegSpacing cfg800 1) ^ 2 ≤ (p.x - q.x) ^ 2 + (p.y - q.y) ^ 2)
      ((generateLevelPegs cfg800 mZero rngC4 1).getD []) := by
  decide!

/-- C9, counterexample: no flooring of degenerate inputs exists —
`createSpiralPattern` with `pegSpacing = 0` (and a positive radius) computes
`angleStep = 0`, hence `steps = Math.floor(maxAngle / 0) = Infinity`, and the
loop never terminates. -/
theorem c9_spiral_divergence_counterexample :
    createSpiralPattern mZero 1 rngHalf 400 300 80 3 0 0 = none := by
  decide!

/-- C9, amended: the pattern inputs are not floored; instead,
`createSpiralPattern` terminates for every `pegSpacing ≠ 0` (and also when
`radius = 0`), and `generateLevel` only ever passes it
`pegSpacing = max(50 - 1.8*level, 2.3*pegRadius) ≥ 2.3*pegRadius`, which is
positive for a positive peg radius. -/
theorem c9_spiral_terminates_unless_zero_spacing (m : JsMath) (curLevel : ℕ)
    (rng : RNG) (cx cy radius : ℚ) (turns : ℕ) (pegSpacing : ℚ) (k : ℕ)
    (h : pegSpacing ≠ 0 ∨ radius = 0) :
    (createSpiralPattern m curLevel rng cx cy radius turns pegSpacing k).isSome = true ∧
    (∀ cfg : GenConfig, ∀ level : ℕ,
      cfg.pegRadius * 2.3 ≤ levelPegSpacing cfg level) := by
  constructor
  · unfold createSpiralPattern
    by_cases hr : radius = 0
    · simp [hr]
    · have hs : pegSpacing ≠ 0 := h.resolve_right hr
      have hstep : pegSpacing / radius ≠ 0 := div_ne_zero hs hr
      simp only [if_neg hr]
      rw [if_neg]
      · simp
      · intro hcon
        exact hstep hcon.1
  · intro cfg level
    exact le_max_right _ _

/-- C9, witness for the amended theorem at `pegSpacing = 1`, `radius = 80`. -/
theorem c9_spiral_terminates_witness :
    ((1 : ℚ) ≠ 0 ∨ (80 : ℚ) = 0) ∧
    ((createSpiralPattern mZero 1 rngHalf 400 300 80 3 1 0).isSome = true ∧
      (∀ cfg : GenConfig, ∀ level : ℕ,
        cfg.pegRadius * 2.3 ≤ levelPegSpacing cfg level)) :=
  ⟨Or.inl (by norm_num),
   c9_spiral_terminates_unless_zero_spacing mZero 1 rngHalf 400 300 80 3 1 0
     (Or.inl (by norm_num))⟩

/-- C1: the color-range claim fails in the code.  First conjunct: for any
math interface whose `atan2(-10,-10)` and `sqrt 200` satisfy the (true) coarse
bounds of the real functions, `spiralGradient` at the peg (390, 315) on level 9
with 6 available colors yields a negative color index (the JS `% 1` preserves
the sign of the negative spiral value).  Second conjunct: a peg with color −2
survives `ensureMinimumColorCounts` unchanged when every color already meets
its minimum, because the final verification pass only remaps colors
`≥ availableColors`. -/
theorem c1_negative_color_escapes (m : JsMath)
    (h1 : -3.15 ≤ m.atan2 (-10) (-10)) (h2 : m.atan2 (-10) (-10) ≤ -1.58)
    (h3 : 0 ≤ m.sqrt 200) (h4 : m.sqrt 200 ≤ 15) :
    spiralGradient cfg800 m ⟨390, 315, 0⟩ 6 9 < 0 ∧
    ((ensureMinimumColorCounts c1pegs 6 9).any (fun p => decide (p.colorIndex < 0)) = true) := by
  constructor
  · have hπ : (0 : ℚ) < piJS * 2 := by norm_num [piJS]
    have hπlt : (3.15 : ℚ) < piJS * 2 := by norm_num [piJS]
    unfold spiralGradient
    simp only [cfg800]
    have hdx : (390 : ℚ) - 800 / 2 = -10 := by norm_num
    have hdy : (315 : ℚ) - 650 / 2 = -10 := by norm_num
    rw [hdx, hdy]
    have hd200 : (-10 : ℚ) * -10 + -10 * -10 = 200 := by norm_num
    rw [hd200]
    set a := m.atan2 (-10) (-10) with ha
    set d := m.sqrt 200 with hd
    set v : ℚ := (a + d * 0.01 * (9 : ℕ)) / (piJS * 2) with hv
    have hnum_neg : a + d * 0.01 * (9 : ℕ) < 0 := by
      push_cast
      nlinarith
    have hnum_gt : -(piJS * 2) < a + d * 0.01 * (9 : ℕ) := by
      push_cast
      nlinarith
    have hv_neg : v < 0 := div_neg_of_neg_of_pos hnum_neg hπ
    have hv_gt : -1 < v := by
      rw [hv, lt_div_iff hπ]
      linarith
    have htr : jsTrunc v = 0 := by
      unfold jsTrunc
      rw [if_neg (by linarith)]
      have : ⌊-v⌋ = 0 := by
        rw [Int.floor_eq_zero_iff]
        constructor <;> [linarith; linarith]
      omega
    have hm : jsFmod v 1 = v := by
      unfold jsFmod
      rw [div_one, htr]
      push_cast
      ring
    rw [hm]
    have : jsFmod v 1 * (6 : ℕ) < 0 := by
      rw [hm]
      push_cast
      nlinarith
    rw [Int.floor_lt]
    push_cast
    nlinarith
  · decide!

/-- C1, witness: the bounds hold of a concrete rational approximation of
`atan2(-10,-10)` and `sqrt 200`, and the conclusions follow. -/
theorem c1_negative_color_escapes_witness :
    ((-3.15 : ℚ) ≤ mC1.atan2 (-10) (-10) ∧ mC1.atan2 (-10) (-10) ≤ -1.58 ∧
      (0 : ℚ) ≤ mC1.sqrt 200 ∧ mC1.sqrt 200 ≤ 15) ∧
    (spiralGradient cfg800 mC1 ⟨390, 315, 0⟩ 6 9 < 0 ∧
      ((ensureMinimumColorCounts c1pegs 6 9).any
        (fun p => decide (p.colorIndex < 0)) = true)) :=
  ⟨⟨by norm_num [mC1], by norm_num [mC1], by norm_num [mC1], by norm_num [mC1]⟩,
   c1_negative_color_escapes mC1 (by norm_num [mC1]) (by norm_num [mC1])
     (by norm_num [mC1]) (by norm_num [mC1])⟩

/-- Geometric decay bound: `(9/10)^n ≤ 9/(9+n)`. -/
theorem pow_nine_tenth_le (n : ℕ) : (9/10 : ℚ) ^ n ≤ 9 / (9 + n) := by
  induction n with
  | zero => norm_num
  | succ n ih =>
    have hn : (0 : ℚ) ≤ n := Nat.cast_nonneg n
    have h1 : (0 : ℚ) < 9 + n := by linarith
    have h2 : (0 : ℚ) < 9 + (n + 1 : ℕ) := by push_cast; linarith
    calc (9/10 : ℚ) ^ (n + 1) = (9/10 : ℚ) ^ n * (9/10) := by ring
      _ ≤ (9 / (9 + n)) * (9/10) := by
          exact mul_le_mul_of_nonneg_right ih (by norm_num)
      _ ≤ 9 / (9 + (n + 1 : ℕ)) := by
          rw [div_mul_div_comm, div_le_div_iff (by positivity) h2]
          push_cast
          nlinarith

/-- One-step unfolding of the fuelled `ensureMinimumPegs` body. -/
theorem ensureMinimumPegsAux_succ (cfg : GenConfig) (rng : RNG) (f : ℕ)
    (pegs : List Peg) (minCount : ℤ) (pegSpacing : ℚ) (level avail k : ℕ) :
    ensureMinimumPegsAux cfg rng (f + 1) pegs minCount pegSpacing level avail k =
      (if minCount ≤ (pegs.length : ℤ) then (pegs, k)
      else
        let filler := createFillerPegs rng horizontalMargin 120
          (cfg.canvasWidth - horizontalMargin) (cfg.canvasHeight - 80)
          (pegSpacing * 1.2) (minCount - pegs.length) pegs avail k
        let filteredPegs :=
          removeEdgePegs cfg (removePegOverlaps (pegs ++ filler.1) (pegSpacing * 0.8))
            (cfg.pegRadius * 2)
        if (filteredPegs.length : ℤ) < minCount ∧ cfg.pegRadius * 3 < pegSpacing then
          ensureMinimumPegsAux cfg rng f filteredPegs minCount (pegSpacing * 0.9)
            level avail filler.2
        else (filteredPegs, filler.2)) := rfl

/-- Fuel-stability of the `ensureMinimumPegs` recursion: once the fuel covers
the number of spacing reductions needed to drop to `pegRadius * 3`, extra fuel
does not change the result. -/
theorem ensureMinimumPegsAux_stable (cfg : GenConfig) (rng : RNG) :
    ∀ (n : ℕ) (spacing : ℚ), spacing * (9/10) ^ n ≤ cfg.pegRadius * 3 →
    ∀ (f : ℕ), n + 1 ≤ f →
    ∀ (pegs : List Peg) (minCount : ℤ) (level avail k : ℕ),
      ensureMinimumPegsAux cfg rng f pegs minCount spacing level avail k =
      ensureMinimumPegsAux cfg rng (n + 1) pegs minCount spacing level avail k := by
  intro n
  induction n with
  | zero =>
    intro spacing hsp f hf pegs minCount level avail k
    obtain ⟨f1, rfl⟩ : ∃ f1, f = f1 + 1 := ⟨f - 1, by omega⟩
    rw [pow_zero, mul_one] at hsp
    rw [ensureMinimumPegsAux_succ, ensureMinimumPegsAux_succ]
    dsimp only
    split_ifs with h1 h2
    · rfl
    · exact absurd h2.2 (not_lt.mpr hsp)
    · rfl
  | succ n ih =>
    intro spacing hsp f hf pegs minCount level avail k
    obtain ⟨f1, rfl⟩ : ∃ f1, f = f1 + 1 := ⟨f - 1, by omega⟩
    have hsp9 : spacing * 0.9 * (9/10) ^ n ≤ cfg.pegRadius * 3 := by
      calc spacing * 0.9 * (9/10) ^ n = spacing * (9/10) ^ (n + 1) := by ring
        _ ≤ cfg.pegRadius * 3 := hsp
    rw [ensureMinimumPegsAux_succ, ensureMinimumPegsAux_succ]
    dsimp only
    split_ifs with h1 h2
    · rfl
    · rw [ih (spacing * 0.9) hsp9 f1 (by omega), ih (spacing * 0.9) hsp9 (n + 1) (by omega)]
    · rfl

/-- C8: `ensureMinimumPegs` terminates on every input (for the generator's
positive peg radius): the recursion multiplies the spacing by 0.9 and is
attempted only while `pegSpacing > pegRadius * 3`, so its depth is finite —
formally, the fuelled recursion is insensitive to any fuel beyond the
computed bound `ensureFuel`, at which `ensureMinimumPegs` runs. -/
theorem c8_ensure_minimum_pegs_terminates (cfg : GenConfig) (rng : RNG)
    (pegs : List Peg) (minCount : ℤ) (pegSpacing : ℚ)
    (levelNumber availableColors k extra : ℕ) (h : 0 < cfg.pegRadius) :
    ensureMinimumPegsAux cfg rng (ensureFuel cfg pegSpacing + extra) pegs minCount
      pegSpacing levelNumber availableColors k =
    ensureMinimumPegs cfg rng pegs minCount pegSpacing levelNumber availableColors k := by
  have hbound : pegSpacing * (9/10) ^ (⌈3 * pegSpacing / cfg.pegRadius⌉).toNat ≤
      cfg.pegRadius * 3 := by
    rcases le_or_lt pegSpacing 0 with hle | hpos
    · have hp : (0 : ℚ) < (9/10 : ℚ) ^ (⌈3 * pegSpacing / cfg.pegRadius⌉).toNat := by
        positivity
      nlinarith
    · set nn := (⌈3 * pegSpacing / cfg.pegRadius⌉).toNat with hnn
      have hx : (0 : ℚ) < 3 * pegSpacing / cfg.pegRadius := by positivity
      have hceil : 3 * pegSpacing / cfg.pegRadius ≤ (nn : ℚ) := by
        have h1 : (⌈3 * pegSpacing / cfg.pegRadius⌉ : ℚ) ≤ (nn : ℚ) := by
          rw [hnn]
          exact_mod_cast Int.self_le_toNat _
        exact le_trans (Int.le_ceil _) h1
      have hnq : (0 : ℚ) < 9 + nn := by positivity
      calc pegSpacing * (9/10) ^ nn ≤ pegSpacing * (9 / (9 + nn)) := by
            exact mul_le_mul_of_nonneg_left (pow_nine_tenth_le nn) (le_of_lt hpos)
        _ ≤ cfg.pegRadius * 3 := by
            rw [mul_div_assoc', div_le_iff hnq]
            have h3 : 3 * pegSpacing ≤ cfg.pegRadius * nn := by
              rw [div_le_iff h] at hceil
              linarith
            nlinarith
  unfold ensureMinimumPegs ensureFuel
  exact ensureMinimumPegsAux_stable cfg rng _ pegSpacing hbound _ (by omega)
    pegs minCount levelNumber availableColors k

/-- C8, witness at the game configuration and level-1 spacing. -/
theorem c8_ensure_minimum_pegs_terminates_witness :
    (0 : ℚ) < cfg800.pegRadius ∧
    ensureMinimumPegsAux cfg800 rngHalf (ensureFuel cfg800 (48.2 : ℚ) + 1) [] 0
        (48.2 : ℚ) 1 4 0 =
      ensureMinimumPegs cfg800 rngHalf [] 0 (48.2 : ℚ) 1 4 0 :=
  ⟨by norm_num [cfg800],
   c8_ensure_minimum_pegs_terminates cfg800 rngHalf [] 0 (48.2 : ℚ) 1 4 0 1
     (by norm_num [cfg800])⟩

/-! ## C7: distinctness of the selected pattern names -/

theorem selectRandomGo_succ (rng : RNG) (count rem : ℕ)
    (pool selected : List PatternKind) (k : ℕ) :
    selectRandomGo rng count (rem + 1) pool selected k =
      if pool.isEmpty then (selected, k)
      else
        let index := (⌊rng k * (pool.length : ℚ)⌋).toNat
        let pattern := pool.getD index .grid
        let selected2 := selected ++ [pattern]
        let pool2 :=
          if selected2.length < count - 1 then pool.filter (· ≠ pattern) else pool
        selectRandomGo rng count rem pool2 selected2 (k + 1) := rfl

theorem selectRandomGo_index_lt (rng : RNG) (k : ℕ) (pool : List PatternKind)
    (h0 : 0 ≤ rng k) (h1 : rng k < 1) (hp : 0 < pool.length) :
    (⌊rng k * (pool.length : ℚ)⌋).toNat < pool.length := by
  have hlt : ⌊rng k * (pool.length : ℚ)⌋ < (pool.length : ℤ) := by
    rw [Int.floor_lt]
    push_cast
    calc rng k * (pool.length : ℚ) < 1 * (pool.length : ℚ) :=
          mul_lt_mul_of_pos_right h1 (by exact_mod_cast hp)
      _ = (pool.length : ℚ) := one_mul _
  omega

theorem selectRandomGo_distinct (rng : RNG) (count : ℕ)
    (hrng : ∀ n, 0 ≤ rng n ∧ rng n < 1) :
    ∀ (rem : ℕ) (pool selected : List PatternKind) (k : ℕ),
      (∀ i, i + 2 < count → i < selected.length →
        selected.getD i .grid ∉ pool) →
      (∀ i j, i < j → j < selected.length → i + 2 < count →
        selected.getD i .grid ≠ selected.getD j .grid) →
      ∀ i j, i < j → j < (selectRandomGo rng count rem pool selected k).1.length →
        i + 2 < count →
        (selectRandomGo rng count rem pool selected k).1.getD i .grid ≠
          (selectRandomGo rng count rem pool selected k).1.getD j .grid := by
  intro rem
  induction rem with
  | zero =>
    intro pool selected k _ hB
    simpa [selectRandomGo] using hB
  | succ rem ih =>
    intro pool selected k hA hB
    cases hpool : pool.isEmpty with
    | true =>
      rw [selectRandomGo_succ, if_pos hpool]
      exact hB
    | false =>
      rw [selectRandomGo_succ, if_neg (by simp [hpool])]
      dsimp only
      have hplen : 0 < pool.length := by
        cases pool with
        | nil => simp at hpool
        | cons a t => simp
      have hidx : (⌊rng k * (pool.length : ℚ)⌋).toNat < pool.length :=
        selectRandomGo_index_lt rng k pool (hrng k).1 (hrng k).2 hplen
      have hmem : pool.getD (⌊rng k * (pool.length : ℚ)⌋).toNat .grid ∈ pool := by
        rw [List.getD_eq_getElem _ _ hidx]
        exact List.getElem_mem _
      set pattern := pool.getD (⌊rng k * (pool.length : ℚ)⌋).toNat .grid with hpat
      have hB2 : ∀ i j, i < j → j < (selected ++ [pattern]).length → i + 2 < count →
          (selected ++ [pattern]).getD i .grid ≠ (selected ++ [pattern]).getD j .grid := by
        intro i j hij hjlen hic
        have hjlen' : j < selected.length + 1 := by simpa using hjlen
        rcases Nat.lt_or_ge j selected.length with hj | hj
        · rw [List.getD_append _ _ _ _ hj, List.getD_append _ _ _ _ (lt_trans hij hj)]
          exact hB i j hij hj hic
        · have hjeq : j = selected.length := by omega
          have hi : i < selected.length := by omega
          rw [List.getD_append _ _ _ _ hi, hjeq,
            List.getD_append_right _ _ _ _ (le_refl _)]
          simp only [Nat.sub_self, List.getD_cons_zero]
          intro heq
          exact hA i hic hi (heq ▸ hmem)
      rcases Nat.lt_or_ge (selected.length + 1) (count - 1) with hc | hc
      · rw [if_pos (by simpa using hc)]
        refine ih (pool.filter (· ≠ pattern)) (selected ++ [pattern]) (k + 1) ?_ hB2
        intro i hic hilen
        rcases Nat.lt_or_ge i selected.length with hi | hi
        · rw [List.getD_append _ _ _ _ hi]
          intro hmem2
          exact hA i hic hi (List.mem_filter.mp hmem2).1
        · have hieq : i = selected.length := by
            have : i < selected.length + 1 := by simpa using hilen
            omega
          rw [hieq, List.getD_append_right _ _ _ _ (le_refl _)]
          simp only [Nat.sub_self, List.getD_cons_zero]
          intro hmem2
          have hne := (List.mem_filter.mp hmem2).2
          simp at hne
      · rw [if_neg (by simpa using Nat.not_lt.mpr hc)]
        refine ih pool (selected ++ [pattern]) (k + 1) ?_ hB2
        intro i hic hilen
        rcases Nat.lt_or_ge i selected.length with hi | hi
        · rw [List.getD_append _ _ _ _ hi]
          exact hA i hic hi
        · have hieq : i = selected.length := by
            have : i < selected.length + 1 := by simpa using hilen
            omega
          omega

/-- C7: for a random stream with values in `[0, 1)`, any two pattern names
selected by `selectRandomPatternsForLevel` at positions `i < j` are distinct
provided `i + 2 < count`; a repeated name is possible only between the last
two draw positions (`count - 2` and `count - 1`), because the source stops
removing drawn names from the pool one draw earlier than its comment
states. -/
theorem c7_selected_patterns_distinct (available : List PatternKind)
    (count levelNumber k : ℕ) (rng : RNG)
    (hrng : ∀ n, 0 ≤ rng n ∧ rng n < 1)
    (i j : ℕ) (hij : i < j)
    (hj : j < (selectRandomPatternsForLevel available count levelNumber rng k).1.length)
    (hcount : i + 2 < count) :
    (selectRandomPatternsForLevel available count levelNumber rng k).1.getD i .grid ≠
      (selectRandomPatternsForLevel available count levelNumber rng k).1.getD j .grid := by
  unfold selectRandomPatternsForLevel at hj ⊢
  exact selectRandomGo_distinct rng count hrng count
    (weightedPatternsFor available levelNumber) [] k
    (fun i _ h2 => absurd h2 (by simp))
    (fun i j _ h2 _ => absurd h2 (by simp))
    i j hij hj hcount

/-- Witness for `c7_selected_patterns_distinct`: the full catalog at level 1
with the constant-`1/2` stream selects four patterns, and positions 0 and 1
hold distinct names. -/
theorem c7_selected_patterns_distinct_witness :
    (∀ n, 0 ≤ rngHalf n ∧ rngHalf n < 1) ∧
    1 < (selectRandomPatternsForLevel patternOrder 4 1 rngHalf 0).1.length ∧
    0 + 2 < 4 ∧
    (selectRandomPatternsForLevel patternOrder 4 1 rngHalf 0).1.getD 0 .grid ≠
      (selectRandomPatternsForLevel patternOrder 4 1 rngHalf 0).1.getD 1 .grid :=
  ⟨fun _ => ⟨by norm_num [rngHalf], by norm_num [rngHalf]⟩, by decide!, by norm_num,
   c7_selected_patterns_distinct patternOrder 4 1 0 rngHalf
     (fun _ => ⟨by norm_num [rngHalf], by norm_num [rngHalf]⟩) 0 1 Nat.zero_lt_one
     (by decide!) (by norm_num)⟩

/-- C7 counterexample: with the pool `[grid, checkerboard]` at level 1,
`count = 2` and a constant-zero stream, both draws return `grid`, although
the weighted pool still contains `checkerboard` — the repeat is not limited
to the pool-exhausted case the claim describes, because removal is skipped
as soon as `selected.length ≥ count - 1`, i.e. for the last two draws. -/
theorem c7_duplicate_despite_pool_counterexample :
    (selectRandomPatternsForLevel [.grid, .checkerboard] 2 1 rngZero 0).1 =
      [.grid, .grid] ∧
    PatternKind.checkerboard ∈ weightedPatternsFor [.grid, .checkerboard] 1 := by
  constructor
  · decide!
  · decide!

/-! ## C10: the balancing pipeline is frame-preserving on positions -/

theorem map_coords_of_preserve (f : Peg → Peg)
    (h : ∀ p, pegCoords (f p) = pegCoords p) (l : List Peg) :
    (l.map f).map pegCoords = l.map pegCoords := by
  rw [List.map_map]
  exact List.map_congr_left (fun a _ => h a)

theorem enumFrom_map_coords (g : ℕ × Peg → Peg)
    (h : ∀ ip, pegCoords (g ip) = pegCoords ip.2) :
    ∀ (n : ℕ) (l : List Peg),
      ((List.enumFrom n l).map g).map pegCoords = l.map pegCoords := by
  intro n l
  induction l generalizing n with
  | nil => rfl
  | cons a t ih => simp [List.enumFrom, h ⟨n, a⟩, ih]

theorem balanceClampGo_map_coords (avail : ℕ) :
    ∀ (l : List Peg) (counts : ℤ → ℤ) (acc : List Peg),
      (balanceClampGo avail l counts acc).map pegCoords =
        acc.map pegCoords ++ l.map pegCoords := by
  intro l
  induction l with
  | nil => intro counts acc; simp [balanceClampGo]
  | cons a t ih =>
    intro counts acc
    simp only [balanceClampGo]
    split_ifs with h1
    · rw [ih]; simp [pegCoords]
    · rw [ih]; simp [pegCoords]

theorem convertFromExcess_map_coords (excess : List ℕ) (color : ℕ) (needed : ℤ) :
    ∀ (l : List Peg) (counts : ℤ → ℤ) (conv : ℤ),
      (convertFromExcess excess color needed l counts conv).1.map pegCoords =
        l.map pegCoords := by
  intro l
  induction l with
  | nil => intro counts conv; simp [convertFromExcess]
  | cons a t ih =>
    intro counts conv
    simp only [convertFromExcess]
    split_ifs with h1
    · dsimp only
      rw [List.map_cons, List.map_cons, ih]
      rfl
    · dsimp only
      rw [List.map_cons, List.map_cons, ih]

theorem convertFromAny_map_coords (level color : ℕ) (needed : ℤ) :
    ∀ (l : List Peg) (counts : ℤ → ℤ) (conv : ℤ),
      (convertFromAny level color needed l counts conv).1.map pegCoords =
        l.map pegCoords := by
  intro l
  induction l with
  | nil => intro counts conv; simp [convertFromAny]
  | cons a t ih =>
    intro counts conv
    simp only [convertFromAny]
    split_ifs with h1
    · dsimp only
      rw [List.map_cons, List.map_cons, ih]
      rfl
    · dsimp only
      rw [List.map_cons, List.map_cons, ih]

theorem enforceColorStep_map_coords (avail level : ℕ) (minPer extra : ℤ)
    (st : List Peg × (ℤ → ℤ)) (c : ℕ) :
    (enforceColorStep avail level minPer extra st c).1.map pegCoords =
      st.1.map pegCoords := by
  unfold enforceColorStep
  dsimp only
  split_ifs <;>
    simp [convertFromAny_map_coords, convertFromExcess_map_coords]

theorem foldl_enforce_map_coords (avail level : ℕ) (minPer extra : ℤ) :
    ∀ (order : List ℕ) (st : List Peg × (ℤ → ℤ)),
      (order.foldl (enforceColorStep avail level minPer extra) st).1.map pegCoords =
        st.1.map pegCoords := by
  intro order
  induction order with
  | nil => intro st; rfl
  | cons c rest ih =>
    intro st
    rw [List.foldl_cons, ih, enforceColorStep_map_coords]

theorem ensureMinimumColorCounts_map_coords (pegs : List Peg) (avail level : ℕ) :
    (ensureMinimumColorCounts pegs avail level).map pegCoords =
      pegs.map pegCoords := by
  unfold ensureMinimumColorCounts
  dsimp only
  rw [map_coords_of_preserve _ (fun p => by split_ifs <;> rfl),
    foldl_enforce_map_coords,
    map_coords_of_preserve _ (fun p => by split_ifs <;> rfl)]

theorem blendColorGradients_map_coords (cfg : GenConfig) (m : JsMath) (rng : RNG)
    (pegs : List Peg) (g1 g2 : Peg → ℕ → ℕ → ℤ) (avail level k : ℕ) :
    (blendColorGradients cfg m rng pegs g1 g2 avail level k).1.map pegCoords =
      pegs.map pegCoords := by
  unfold blendColorGradients
  dsimp only
  split_ifs <;>
    first
      | (apply enumFrom_map_coords
         intro ip
         rfl)
      | (apply map_coords_of_preserve
         intro p
         rfl)

theorem applyColorGradient_map_coords (cfg : GenConfig) (m : JsMath) (rng : RNG)
    (pegs : List Peg) (avail level k : ℕ) :
    (applyColorGradient cfg m rng pegs avail level k).1.map pegCoords =
      pegs.map pegCoords := by
  unfold applyColorGradient
  dsimp only
  split_ifs with h1 h2
  · exact blendColorGradients_map_coords cfg m rng pegs _ _ avail level (k + 3)
  · apply map_coords_of_preserve
    intro p
    rfl
  · apply map_coords_of_preserve
    intro p
    rfl

theorem balanceColors_map_coords (cfg : GenConfig) (m : JsMath) (rng : RNG)
    (pegs : List Peg) (avail level k : ℕ) :
    (balanceColors cfg m rng pegs avail level k).1.map pegCoords =
      pegs.map pegCoords := by
  unfold balanceColors
  dsimp only
  split_ifs with h
  · rw [ensureMinimumColorCounts_map_coords, applyColorGradient_map_coords,
      balanceClampGo_map_coords]
    simp
  · rw [ensureMinimumColorCounts_map_coords, balanceClampGo_map_coords]
    simp

/-- C10: `balanceColors` (the clamp stage, the gradient recolor stage and the
minimum-per-color enforcement) neither adds nor removes pegs and never moves
one: the returned list has the same length as the input and the same
position, `pegCoords`, at every index; only `colorIndex` may differ. -/
theorem c10_balance_colors_preserves_positions (cfg : GenConfig) (m : JsMath)
    (rng : RNG) (pegs : List Peg) (availableColors levelNumber k : ℕ) :
    (balanceColors cfg m rng pegs availableColors levelNumber k).1.length =
        pegs.length ∧
    (balanceColors cfg m rng pegs availableColors levelNumber k).1.map pegCoords =
        pegs.map pegCoords := by
  have h := balanceColors_map_coords cfg m rng pegs availableColors levelNumber k
  refine ⟨?_, h⟩
  have h2 := congrArg List.length h
  simpa using h2

/-! ## C3 (amended): the enforcement pass keeps minima that already hold -/

theorem map_clamp_id (avail : ℕ) (l : List Peg)
    (h : ∀ p ∈ l, p.colorIndex < (avail : ℤ)) :
    l.map (fun p =>
      if (avail : ℤ) ≤ p.colorIndex then
        { p with colorIndex := jsRemInt p.colorIndex (avail : ℤ) }
      else p) = l := by
  induction l with
  | nil => rfl
  | cons a t ih =>
    rw [List.map_cons, if_neg (not_le.mpr (h a (List.mem_cons_self a t))),
      ih (fun p hp => h p (List.mem_cons_of_mem a hp))]

theorem enforceColorStep_fixed (avail level : ℕ) (minPer extra : ℤ)
    (pegs : List Peg) (counts : ℤ → ℤ)
    (h : ∀ c : ℕ, c < avail →
      (if c = 5 ∧ level = 3 then minPer + extra else minPer) ≤ counts (c : ℤ)) :
    ∀ c : ℕ, enforceColorStep avail level minPer extra (pegs, counts) c =
      (pegs, counts) := by
  intro c
  unfold enforceColorStep
  dsimp only
  rcases Nat.lt_or_ge c avail with hc | hc
  · rw [if_neg (by omega), if_neg (not_lt.mpr (h c hc))]
  · rw [if_pos hc]

theorem foldl_enforce_fixed (avail level : ℕ) (minPer extra : ℤ)
    (pegs : List Peg) (counts : ℤ → ℤ)
    (h : ∀ c : ℕ, c < avail →
      (if c = 5 ∧ level = 3 then minPer + extra else minPer) ≤ counts (c : ℤ)) :
    ∀ order : List ℕ,
      order.foldl (enforceColorStep avail level minPer extra) (pegs, counts) =
        (pegs, counts) := by
  intro order
  induction order with
  | nil => rfl
  | cons c rest ih =>
    rw [List.foldl_cons,
      enforceColorStep_fixed avail level minPer extra pegs counts h c, ih]

/-- C3 (amended): `ensureMinimumColorCounts` cannot in general establish the
per-color minimum (see `c3_per_color_minimum_counterexample`: stealing pegs
for one deficient color can push another color below its minimum); what holds
is preservation — when every peg's color already lies below `availableColors`
and every available color already meets its minimum (`max(3, ⌊5 - level·0.1⌋)`,
plus 2 for color 5 on level 3), the pass returns the input unchanged and every
available color still meets the per-color minimum of the claim. -/
theorem c3_color_minimum_preserved (pegs : List Peg) (avail level : ℕ)
    (hcol : ∀ p ∈ pegs, p.colorIndex < (avail : ℤ))
    (hmin : ∀ c : ℕ, c < avail →
      (if c = 5 ∧ level = 3 then max 3 ⌊5 - (level : ℚ) * 0.1⌋ + 2
       else max 3 ⌊5 - (level : ℚ) * 0.1⌋) ≤ (countColor pegs (c : ℤ) : ℤ)) :
    ensureMinimumColorCounts pegs avail level = pegs ∧
    ∀ c : ℕ, c < avail →
      max 3 ⌊5 - (level : ℚ) * 0.1⌋ ≤
        (countColor (ensureMinimumColorCounts pegs avail level) (c : ℤ) : ℤ) := by
  have hcnt : ∀ c : ℕ, c < avail →
      (if c = 5 ∧ level = 3
        then max 3 ⌊5 - (level : ℚ) * 0.1⌋ + (if level = 3 then (2 : ℤ) else 0)
        else max 3 ⌊5 - (level : ℚ) * 0.1⌋) ≤ (countColor pegs (c : ℤ) : ℤ) := by
    intro c hc
    have h := hmin c hc
    by_cases hce : c = 5 ∧ level = 3
    · rw [if_pos hce, if_pos hce.2]
      rw [if_pos hce] at h
      exact h
    · rwa [if_neg hce] at h ⊢
  have hid : ensureMinimumColorCounts pegs avail level = pegs := by
    unfold ensureMinimumColorCounts
    dsimp only
    rw [map_clamp_id avail pegs hcol]
    rw [foldl_enforce_fixed avail level (max 3 ⌊5 - (level : ℚ) * 0.1⌋)
      (if level = 3 then (2 : ℤ) else 0) pegs
      (fun c => (countColor pegs c : ℤ)) hcnt]
    exact map_clamp_id avail pegs hcol
  refine ⟨hid, ?_⟩
  intro c hc
  rw [hid]
  have h := hmin c hc
  split_ifs at h with hce
  · linarith
  · exact h

/-- Witness for `c3_color_minimum_preserved`: sixteen pegs, four in each of
the four colors available at level 1 (minimum `max(3, ⌊4.9⌋) = 4`). -/
theorem c3_color_minimum_preserved_witness :
    (∀ p ∈ c3wpegs, p.colorIndex < ((4 : ℕ) : ℤ)) ∧
    (∀ c : ℕ, c < 4 →
      (if c = 5 ∧ (1 : ℕ) = 3 then max 3 ⌊5 - ((1 : ℕ) : ℚ) * 0.1⌋ + 2
       else max 3 ⌊5 - ((1 : ℕ) : ℚ) * 0.1⌋) ≤ (countColor c3wpegs (c : ℤ) : ℤ)) ∧
    (ensureMinimumColorCounts c3wpegs 4 1 = c3wpegs ∧
     ∀ c : ℕ, c < 4 →
       max 3 ⌊5 - ((1 : ℕ) : ℚ) * 0.1⌋ ≤
         (countColor (ensureMinimumColorCounts c3wpegs 4 1) (c : ℤ) : ℤ)) :=
  ⟨by decide!, by decide!,
   c3_color_minimum_preserved c3wpegs 4 1 (by decide!) (by decide!)⟩

/-! ## C2/C4 (amended): the filtering passes dominate the generator's output
for the procedural levels (`levelNumber ≥ 3`) -/

theorem removeEdgePegs_eq_filter (cfg : GenConfig) (l : List Peg) (d : ℚ) :
    removeEdgePegs cfg l d = l.filter (edgeOK cfg d) := rfl

theorem removeEdgePegs_all_edgeOK (cfg : GenConfig) (l : List Peg) (d : ℚ) :
    ∀ p ∈ removeEdgePegs cfg l d, edgeOK cfg d p = true := by
  intro p hp
  rw [removeEdgePegs_eq_filter] at hp
  exact (List.mem_filter.mp hp).2

theorem removeEdgePegs_pairwise {R : Peg → Peg → Prop} (cfg : GenConfig)
    (l : List Peg) (d : ℚ) (h : l.Pairwise R) :
    (removeEdgePegs cfg l d).Pairwise R := by
  rw [removeEdgePegs_eq_filter]
  exact List.Pairwise.sublist (List.filter_sublist l) h

theorem removePegOverlapsGo_pairwise (b m : ℚ) (hb : 0 ≤ b) (hbm : b ≤ m) :
    ∀ (pegs acc : List Peg),
      acc.Pairwise (fun p q => b ^ 2 ≤ (p.x - q.x) ^ 2 + (p.y - q.y) ^ 2) →
      (pegs.foldl (fun result peg =>
        if result.any (fun existingPeg =>
          distLtB existingPeg.x existingPeg.y peg.x peg.y m)
        then result else result ++ [peg]) acc).Pairwise
          (fun p q => b ^ 2 ≤ (p.x - q.x) ^ 2 + (p.y - q.y) ^ 2) := by
  intro pegs
  induction pegs with
  | nil => intro acc h; simpa using h
  | cons a t ih =>
    intro acc h
    rw [List.foldl_cons]
    by_cases hc : acc.any (fun existingPeg =>
        distLtB existingPeg.x existingPeg.y a.x a.y m) = true
    · rw [if_pos hc]
      exact ih acc h
    · rw [if_neg hc]
      apply ih
      rw [List.pairwise_append]
      refine ⟨h, List.pairwise_singleton _ _, ?_⟩
      intro p hp q hq
      have hq' : q = a := by simpa using hq
      subst hq'
      have key : ¬ (0 < m ∧ (p.x - q.x) ^ 2 + (p.y - q.y) ^ 2 < m ^ 2) := by
        intro hk
        apply hc
        refine List.any_eq_true.mpr ⟨p, hp, ?_⟩
        unfold distLtB
        simp [hk.1, hk.2]
      rcases le_or_lt m 0 with hm | hm
      · have hb0 : b = 0 := le_antisymm (le_trans hbm hm) hb
        rw [hb0]
        nlinarith [sq_nonneg (p.x - q.x), sq_nonneg (p.y - q.y)]
      · have hd2 : m ^ 2 ≤ (p.x - q.x) ^ 2 + (p.y - q.y) ^ 2 := by
          by_contra hlt
          exact key ⟨hm, not_le.mp hlt⟩
        have hbsq : b ^ 2 ≤ m ^ 2 := by nlinarith
        exact le_trans hbsq hd2

theorem removePegOverlaps_pairwise (pegs : List Peg) (m b : ℚ)
    (hb : 0 ≤ b) (hbm : b ≤ m) :
    (removePegOverlaps pegs m).Pairwise
      (fun p q => b ^ 2 ≤ (p.x - q.x) ^ 2 + (p.y - q.y) ^ 2) := by
  unfold removePegOverlaps
  exact removePegOverlapsGo_pairwise b m hb hbm pegs [] List.Pairwise.nil

theorem ensureMinimumPegsAux_edge (cfg : GenConfig) (rng : RNG) :
    ∀ (fuel : ℕ) (pegs : List Peg) (minCount : ℤ) (s : ℚ) (lv av k : ℕ),
      (∀ p ∈ pegs, edgeOK cfg (cfg.pegRadius * 2) p = true) →
      ∀ p ∈ (ensureMinimumPegsAux cfg rng fuel pegs minCount s lv av k).1,
        edgeOK cfg (cfg.pegRadius * 2) p = true := by
  intro fuel
  induction fuel with
  | zero =>
    intro pegs minCount s lv av k h
    simpa [ensureMinimumPegsAux] using h
  | succ fuel ih =>
    intro pegs minCount s lv av k h
    rw [ensureMinimumPegsAux_succ]
    dsimp only
    split_ifs with h1 h2
    · exact h
    · exact ih _ _ _ _ _ _ (removeEdgePegs_all_edgeOK cfg _ _)
    · exact removeEdgePegs_all_edgeOK cfg _ _

theorem ensureMinimumPegsAux_pairwise (cfg : GenConfig) (rng : RNG) (b : ℚ)
    (hb : 0 ≤ b) (hbr : b ≤ cfg.pegRadius * 2.16) :
    ∀ (fuel : ℕ) (pegs : List Peg) (minCount : ℤ) (s : ℚ) (lv av k : ℕ),
      b ≤ s * 0.8 →
      pegs.Pairwise (fun p q => b ^ 2 ≤ (p.x - q.x) ^ 2 + (p.y - q.y) ^ 2) →
      ((ensureMinimumPegsAux cfg rng fuel pegs minCount s lv av k).1).Pairwise
        (fun p q => b ^ 2 ≤ (p.x - q.x) ^ 2 + (p.y - q.y) ^ 2) := by
  intro fuel
  induction fuel with
  | zero =>
    intro pegs minCount s lv av k hs h
    simpa [ensureMinimumPegsAux] using h
  | succ fuel ih =>
    intro pegs minCount s lv av k hs h
    rw [ensureMinimumPegsAux_succ]
    dsimp only
    split_ifs with h1 h2
    · exact h
    · refine ih _ _ (s * 0.9) _ _ _ ?_ ?_
      · have hr3 : cfg.pegRadius * 3 < s := h2.2
        linarith
      · exact removeEdgePegs_pairwise cfg _ _
          (removePegOverlaps_pairwise _ _ b hb hs)
    · exact removeEdgePegs_pairwise cfg _ _
        (removePegOverlaps_pairwise _ _ b hb hs)

theorem all_edgeOK_coords_transfer (cfg : GenConfig) (d : ℚ) (l1 l2 : List Peg)
    (hc : l2.map pegCoords = l1.map pegCoords)
    (h : ∀ p ∈ l1, edgeOK cfg d p = true) :
    ∀ p ∈ l2, edgeOK cfg d p = true := by
  intro p hp
  have hmem : pegCoords p ∈ l1.map pegCoords := by
    rw [← hc]
    exact List.mem_map_of_mem pegCoords hp
  rcases List.mem_map.mp hmem with ⟨q, hq, hpq⟩
  have hx : q.x = p.x := congrArg Prod.fst hpq
  have hy : q.y = p.y := congrArg Prod.snd hpq
  have hqok := h q hq
  unfold edgeOK at hqok ⊢
  rw [← hx, ← hy]
  exact hqok

theorem pairwise_coords_transfer (c : ℚ) (l1 l2 : List Peg)
    (hc : l2.map pegCoords = l1.map pegCoords)
    (h : l1.Pairwise (fun p q => c ≤ (p.x - q.x) ^ 2 + (p.y - q.y) ^ 2)) :
    l2.Pairwise (fun p q => c ≤ (p.x - q.x) ^ 2 + (p.y - q.y) ^ 2) := by
  have h1 : (l1.map pegCoords).Pairwise
      (fun u v => c ≤ (u.1 - v.1) ^ 2 + (u.2 - v.2) ^ 2) :=
    (@List.pairwise_map Peg (ℚ × ℚ) pegCoords
      (fun u v => c ≤ (u.1 - v.1) ^ 2 + (u.2 - v.2) ^ 2) l1).mpr h
  rw [← hc] at h1
  exact (@List.pairwise_map Peg (ℚ × ℚ) pegCoords
    (fun u v => c ≤ (u.1 - v.1) ^ 2 + (u.2 - v.2) ^ 2) l2).mp h1

theorem generateProceduralLevel_some (cfg : GenConfig) (m : JsMath) (rng : RNG)
    (lv pc : ℕ) (ap : List PatternKind) (s : ℚ) (k : ℕ) (pegs : List Peg)
    (k1 : ℕ)
    (h : generateProceduralLevel cfg m rng lv pc ap s k = some (pegs, k1)) :
    ∃ W : List Peg,
      pegs = removeEdgePegs cfg (removePegOverlaps W (s * 0.8))
        (cfg.pegRadius * 2) := by
  unfold generateProceduralLevel at h
  dsimp only at h
  split at h
  · simp at h
  · injection h with h2
    rw [Prod.mk.injEq] at h2
    exact ⟨_, h2.1.symm⟩

theorem generateAdvancedLevel_some (cfg : GenConfig) (m : JsMath) (rng : RNG)
    (lv : ℕ) (s : ℚ) (ap : List PatternKind) (k : ℕ) (pegs : List Peg) (k1 : ℕ)
    (h : generateAdvancedLevel cfg m rng lv s ap k = some (pegs, k1)) :
    ∃ W : List Peg,
      pegs = removeEdgePegs cfg (removePegOverlaps W (s * 0.8))
        (cfg.pegRadius * 2) := by
  unfold generateAdvancedLevel at h
  dsimp only at h
  exact generateProceduralLevel_some cfg m rng lv _ _ s _ pegs k1 h

theorem generateLevel_ge3_prop (cfg : GenConfig) (m : JsMath) (rng : RNG)
    (j k : ℕ) (P : List Peg → Prop)
    (hfilter : ∀ W : List Peg,
      P (removeEdgePegs cfg
        (removePegOverlaps W (levelPegSpacing cfg (j + 3) * 0.8))
        (cfg.pegRadius * 2)))
    (hensure : ∀ (fuel : ℕ) (pegs : List Peg) (mc : ℤ) (lv av kk : ℕ), P pegs →
      P ((ensureMinimumPegsAux cfg rng fuel pegs mc (levelPegSpacing cfg (j + 3))
          lv av kk).1))
    (hcoords : ∀ l1 l2 : List Peg, l2.map pegCoords = l1.map pegCoords →
      P l1 → P l2)
    (st : List Peg × ℕ) (h : generateLevel cfg m rng (j + 3) k = some st) :
    P st.1 := by
  unfold generateLevel at h
  dsimp only at h
  rw [if_neg (by omega : ¬ (j + 3 = 1)), if_neg (by omega : ¬ (j + 3 = 2))] at h
  by_cases hj : j + 3 = 3
  · rw [if_pos hj] at h
    split at h
    · simp at h
    · rename_i pegs0 k0 heq
      injection h with h2
      subst h2
      refine hcoords _ _ (balanceColors_map_coords _ _ _ _ _ _ _) ?_
      obtain ⟨W, hW⟩ := generateAdvancedLevel_some cfg m rng _ _ _ _ _ _ heq
      split_ifs with hlen
      · unfold ensureMinimumPegs
        refine hensure _ _ _ _ _ _ ?_
        rw [hW]
        exact hfilter W
      · rw [hW]
        exact hfilter W
  · rw [if_neg hj] at h
    split at h
    · simp at h
    · rename_i pegs0 k0 heq
      injection h with h2
      subst h2
      refine hcoords _ _ (balanceColors_map_coords _ _ _ _ _ _ _) ?_
      obtain ⟨W, hW⟩ := generateProceduralLevel_some cfg m rng _ _ _ _ _ _ _ heq
      split_ifs with hlen
      · unfold ensureMinimumPegs
        refine hensure _ _ _ _ _ _ ?_
        rw [hW]
        exact hfilter W
      · rw [hW]
        exact hfilter W

/-- C2 (amended): the claim fails at level 1 (see
`c2_level1_edge_counterexample`: the level-1 grid is laid out without any
edge filtering), but holds for every procedural level `levelNumber ≥ 3`, for
every outcome of the randomness and of the trigonometric functions: every
returned peg satisfies `x ≥ horizontalMargin + pegRadius·2`,
`x ≤ canvasWidth - horizontalMargin - pegRadius·2`, `y ≥ pegRadius·2` and
`y ≤ canvasHeight - pegRadius·2`, because `removeEdgePegs` at
`pegRadius·2` is the last geometric pass on every path (the procedural
assembly and each round of `ensureMinimumPegs`), and color balancing moves
nothing. -/
theorem c2_edge_clearance_amended (j : ℕ) (m : JsMath) (rng : RNG) :
    ((generateLevelPegs cfg800 m rng (j + 3)).getD []).all
      (edgeOK cfg800 (cfg800.pegRadius * 2)) = true := by
  unfold generateLevelPegs
  cases h : generateLevel cfg800 m rng (j + 3) 0 with
  | none => rfl
  | some st =>
    show st.1.all (edgeOK cfg800 (cfg800.pegRadius * 2)) = true
    rw [List.all_eq_true]
    exact generateLevel_ge3_prop cfg800 m rng j 0
      (fun l => ∀ p ∈ l, edgeOK cfg800 (cfg800.pegRadius * 2) p = true)
      (fun W => removeEdgePegs_all_edgeOK cfg800 _ _)
      (fun fuel pegs mc lv av kk hp =>
        ensureMinimumPegsAux_edge cfg800 rng fuel pegs mc _ lv av kk hp)
      (fun l1 l2 hc hp => all_edgeOK_coords_transfer cfg800 _ l1 l2 hc hp)
      st h

/-- C4 (amended): the claimed bound `pegSpacing·0.8` fails (see
`c4_overlap_counterexample`: `ensureMinimumPegs` refilters at geometrically
shrinking spacings), but a positive uniform bound survives for every
procedural level `levelNumber ≥ 3` and every outcome of the randomness: any
two distinct returned pegs are at squared distance at least
`min(pegSpacing·0.8, pegRadius·2.16)²`, since each overlap pass keeps a
pairwise guarantee at its own spacing and the recursion guard
`pegSpacing > pegRadius·3` floors the shrinking spacing at
`pegRadius·3·0.9·0.8`. -/
theorem c4_min_separation_amended (j : ℕ) (m : JsMath) (rng : RNG) :
    ((generateLevelPegs cfg800 m rng (j + 3)).getD []).Pairwise
      (fun p q =>
        (min (levelPegSpacing cfg800 (j + 3) * 0.8) (cfg800.pegRadius * 2.16)) ^ 2 ≤
          (p.x - q.x) ^ 2 + (p.y - q.y) ^ 2) := by
  have hsp : (23 : ℚ) ≤ levelPegSpacing cfg800 (j + 3) := by
    have hmax := le_max_right (minPegSpacing - ((j + 3 : ℕ) : ℚ) * 1.8)
      (cfg800.pegRadius * 2.3)
    unfold levelPegSpacing
    norm_num [cfg800] at hmax ⊢
  have hb : 0 ≤ min (levelPegSpacing cfg800 (j + 3) * 0.8) (cfg800.pegRadius * 2.16) := by
    apply le_min
    · linarith
    · norm_num [cfg800]
  have hbr : min (levelPegSpacing cfg800 (j + 3) * 0.8) (cfg800.pegRadius * 2.16) ≤
      cfg800.pegRadius * 2.16 := min_le_right _ _
  have hbs : min (levelPegSpacing cfg800 (j + 3) * 0.8) (cfg800.pegRadius * 2.16) ≤
      levelPegSpacing cfg800 (j + 3) * 0.8 := min_le_left _ _
  unfold generateLevelPegs
  cases h : generateLevel cfg800 m rng (j + 3) 0 with
  | none => exact List.Pairwise.nil
  | some st =>
    show st.1.Pairwise _
    exact generateLevel_ge3_prop cfg800 m rng j 0
      (fun l => l.Pairwise (fun p q =>
        (min (levelPegSpacing cfg800 (j + 3) * 0.8) (cfg800.pegRadius * 2.16)) ^ 2 ≤
          (p.x - q.x) ^ 2 + (p.y - q.y) ^ 2))
      (fun W => removeEdgePegs_pairwise cfg800 _ _
        (removePegOverlaps_pairwise W _ _ hb hbs))
      (fun fuel pegs mc lv av kk hp =>
        ensureMinimumPegsAux_pairwise cfg800 rng _ hb hbr fuel pegs mc _ lv av kk
          hbs hp)
      (fun l1 l2 hc hp => pairwise_coords_transfer _ l1 l2 hc hp)
      st h
